import Mathlib

/-!
# Cambridge pseudocode interpreter: a verified shallow embedding

This file embeds the tree-walking evaluator and lexically scoped
environment model of the Cambridge pseudocode interpreter
(`pkg/interpreter/interpreter.go`, `pkg/interpreter/environment.go`,
`pkg/interpreter/object.go`) into Lean and proves properties of the
embedding.

Modelling conventions, chosen to mirror the Go source:

* Go `int64` is modelled as `Int` (no claim exercises 64-bit overflow);
  Go truncated division/remainder (`/`, `%` on integers) are `Int.tdiv`
  and `Int.tmod`, which round toward zero exactly as Go does.
* Go `float64` is modelled as `ℚ`.  Every real-number computation any
  claim touches (`5 / 2`, division-by-zero tests, integer promotion) is
  exact in both `float64` and `ℚ`, so the model agrees with the code on
  those values.  The `%g` textual rendering of reals is abstracted by
  `realToString`; no claim depends on it.
* Go maps (`env.store`, `class.Methods`, `instance.Fields`) are
  association lists with `insertA` (replace-or-append) playing the role
  of `m[k] = v`, and `lookupA` the role of `m[k]`.
* Environments (`environment.go`) form a chain; the Go code mutates a
  scope through a pointer, which is modelled by the operations returning
  the updated chain.  Instances are mutable heap objects aliased by
  reference in Go, so they live in an explicit heap (`Heap`) keyed by
  `Nat` references, and `Obj.instV` stores such a reference.
* The evaluator recurses through user function bodies and loops, so it
  takes a fuel argument; fuel strictly decreases at every recursive
  call, making every definition computable by kernel reduction.
  Exhausted fuel yields the sentinel `Obj.errV "out of fuel"`, which no
  theorem below relies on.
* File statements, arrays, records, user TYPEs, DATE values and the
  builtin registry are outside every claim and are omitted from the
  embedded fragment (the builtin registry is modelled as empty, so the
  identifier fallback in `evalIdentifier` goes straight to the
  not-found error).
* A closure captures its environment as a value (a snapshot at
  declaration time) rather than as an aliased pointer, so a mutation of
  a captured scope performed after capture is not observable through
  the closure.  No property proved below depends on observing such a
  mutation: every theorem speaks about one call/scope chain at a time.
-/

/-- Association-list lookup: the model of reading a Go map. -/
def lookupA {κ α : Type} [DecidableEq κ] (k : κ) : List (κ × α) → Option α
  | [] => none
  | (k', v) :: rest => if k' = k then some v else lookupA k rest

/-- Association-list insert-or-replace: the model of `m[k] = v` on a Go
map.  Keys stay unique if they were unique. -/
def insertA {κ α : Type} [DecidableEq κ] (k : κ) (v : α) : List (κ × α) → List (κ × α)
  | [] => [(k, v)]
  | (k', v') :: rest => if k' = k then (k, v) :: rest else (k', v') :: insertA k v rest

/-- Membership in the set of constant names (`env.constants` in Go). -/
def constMem (name : String) : List String → Bool
  | [] => false
  | n :: rest => if n = name then true else constMem name rest

/-- Add a name to the constant set (`env.constants[name] = true`). -/
def constAdd (name : String) (cs : List String) : List String :=
  if constMem name cs then cs else name :: cs

/-- A formal parameter of a PROCEDURE/FUNCTION (`ast.Parameter`): a name
plus the BYREF flag. -/
structure Param where
  name : String
  byRef : Bool
deriving DecidableEq, Repr

/-- Expressions of the embedded AST fragment (`ast` package, shapes as
consumed by `evalExpression`).  `unaryE` is the prefix-operator node and
`binaryE` the binary (in Go: "infix") operator node; `rangeE` is the
CASE-selector range node. -/
inductive Expr where
  | intLit (n : Int)
  | realLit (q : ℚ)
  | strLit (s : String)
  | charLit (s : String)
  | boolLit (b : Bool)
  | ident (name : String)
  | unaryE (op : String) (right : Expr)
  | binaryE (op : String) (left right : Expr)
  | memberE (obj : Expr) (member : String)
  | callE (callee : Expr) (args : List Expr)
  | newE (className : String) (args : List Expr)
  | superE
  | rangeE (lo hi : Expr)

/-- Statements of the embedded AST fragment.  Class members reuse
`declareS`/`procS`/`funcS` exactly as the Go AST reuses its statement
nodes inside `ClassStatement.Members`.  The declared type of a DECLARE
is the primitive type name (the only part `evalDeclareStatement` reads
in the embedded fragment); `classS` uses the empty string for "no
parent", as the Go AST does. -/
inductive Stmt where
  | declareS (name : String) (dtype : String)
  | constantS (name : String) (value : Expr)
  | assignS (target : Expr) (value : Expr)
  | ifS (cond : Expr) (cons : List Stmt) (alt : Option (List Stmt))
  | caseS (subj : Expr) (clauses : List (List Expr × List Stmt)) (otherw : Option (List Stmt))
  | forS (v : String) (startE : Expr) (finishE : Expr) (stepE : Option Expr) (body : List Stmt)
  | whileS (cond : Expr) (body : List Stmt)
  | repeatS (body : List Stmt) (cond : Expr)
  | procS (name : String) (params : List Param) (body : List Stmt)
  | funcS (name : String) (params : List Param) (body : List Stmt)
  | callS (callee : Expr) (args : List Expr)
  | returnS (value : Option Expr)
  | inputS (target : Expr)
  | outputS (values : List Expr)
  | classS (name : String) (parent : String) (members : List Stmt)
  | exprS (e : Expr)

mutual
/-- Runtime values (`object.go`).  `retV` is the `ReturnValue` control
signal, `errV` the `Error` control signal (positions are not modelled:
the embedded evaluator never sets them, matching the `Line == 0`
rendering).  `instV` is a heap reference to an `Instance`; `boundV` is a
`BoundMethod` (instance reference plus the underlying function or
procedure object); `superV` is a `Super` value (instance reference plus
the parent class to search from). -/
inductive Obj where
  | intV (n : Int)
  | realV (q : ℚ)
  | strV (s : String)
  | charV (c : Char)
  | boolV (b : Bool)
  | nullV
  | errV (msg : String)
  | retV (v : Obj)
  | funcV (f : FuncV)
  | procV (f : FuncV)
  | classV (c : ClassV)
  | instV (ref : Nat)
  | boundV (ref : Nat) (m : Obj)
  | superV (ref : Nat) (cls : ClassV)

/-- A user Function/Procedure value: name, parameters, body, and the
captured closure environment (`Function`/`Procedure` in `object.go`). -/
inductive FuncV where
  | mk (name : String) (params : List Param) (body : List Stmt) (env : Env)

/-- A class value (`Class` in `object.go`): name, optional parent class,
method map, and the declared-field-name set (the Go map stores each
field's `ast.DataType`, which the evaluator never reads; the model keeps
the keys). -/
inductive ClassV where
  | mk (name : String) (parent : Option ClassV) (methods : List (String × Obj)) (fields : List String)

/-- A lexical scope (`Environment` in `environment.go`): value store,
constant-name set, optional active-instance reference, optional parent
scope.  The user-TYPE map is omitted (no embedded statement uses it). -/
inductive Env where
  | mk (store : List (String × Obj)) (consts : List String) (inst : Option Nat) (outer : Option Env)
end

namespace Env

def store : Env → List (String × Obj)
  | .mk s _ _ _ => s

def consts : Env → List String
  | .mk _ c _ _ => c

def inst : Env → Option Nat
  | .mk _ _ i _ => i

def outer : Env → Option Env
  | .mk _ _ _ o => o

end Env

namespace ClassV

def name : ClassV → String
  | .mk n _ _ _ => n

def parent : ClassV → Option ClassV
  | .mk _ p _ _ => p

def methods : ClassV → List (String × Obj)
  | .mk _ _ m _ => m

def fields : ClassV → List String
  | .mk _ _ _ f => f

end ClassV

/-- The mutable state of one `Instance`: its class and its field map. -/
structure InstData where
  cls : ClassV
  fields : List (String × Obj)

/-- The instance heap: reference → instance state.  Go instances are
shared mutable objects reached through pointers; the heap makes that
aliasing explicit. -/
abbrev Heap := List (Nat × InstData)

/-- Read the field map of the instance at `ref`. -/
def heapLookup (h : Heap) (ref : Nat) : Option InstData :=
  lookupA ref h

/-- Overwrite one field of the instance at `ref` (the model of
`instance.Fields[name] = v`). -/
def heapSetField (h : Heap) (ref : Nat) (name : String) (v : Obj) : Heap :=
  match h with
  | [] => []
  | (r, d) :: rest =>
    if r = ref then (r, ⟨d.cls, insertA name v d.fields⟩) :: rest
    else (r, d) :: heapSetField rest ref name v

/-- The active-instance field read performed by `Environment.Get`. -/
def instFieldGet (h : Heap) (i : Option Nat) (name : String) : Option Obj :=
  match i with
  | none => none
  | some r =>
    match heapLookup h r with
    | none => none
    | some d => lookupA name d.fields

/-- The `SetInPlace` instance test: the active instance's reference,
provided the instance owns a field of this name. -/
def instOwner (h : Heap) (i : Option Nat) (name : String) : Option Nat :=
  match i with
  | none => none
  | some r =>
    match heapLookup h r with
    | none => none
    | some d => if (lookupA name d.fields).isSome then some r else none

/-- `Environment.Get`: current store, then active-instance fields, then
the parent chain (`environment.go`). -/
def envGet (h : Heap) : Env → String → Option Obj
  | .mk st _ ins out, name =>
    match lookupA name st with
    | some v => some v
    | none =>
      match instFieldGet h ins name with
      | some v => some v
      | none =>
        match out with
        | some o => envGet h o name
        | none => none

/-- `Environment.Declare`: bind in the current scope, overwriting. -/
def envDeclare (e : Env) (name : String) (v : Obj) : Env :=
  match e with
  | .mk st c i o => .mk (insertA name v st) c i o

/-- `Environment.DeclareConstant`: bind and mark constant. -/
def envDeclareConstant (e : Env) (name : String) (v : Obj) : Env :=
  match e with
  | .mk st c i o => .mk (insertA name v st) (constAdd name c) i o

/-- `Environment.SetInPlace`: find the scope or instance that owns
`name` (store first, then active-instance fields, then outer) and
mutate it there; a constant owner yields the ConstantViolation error and
changes nothing; a name owned nowhere is created in the scope at which
the walk bottoms out — the outermost scope of the chain.  Returns the
updated chain, the updated heap, and the Go method's return value. -/
def envSetInPlace (h : Heap) : Env → String → Obj → Env × Heap × Obj
  | .mk st c i o, name, v =>
    match lookupA name st with
    | some _ =>
      if constMem name c then (.mk st c i o, h, .errV ("cannot modify constant: " ++ name))
      else (.mk (insertA name v st) c i o, h, v)
    | none =>
      match instOwner h i name with
      | some r => (.mk st c i o, heapSetField h r name v, v)
      | none =>
        match o with
        | some oEnv =>
          let res := envSetInPlace h oEnv name v
          (.mk st c i (some res.1), res.2.1, res.2.2)
        | none => (.mk (insertA name v st) c i o, h, v)

/-- `NewEnclosedEnvironment`: fresh empty child scope. -/
def childEnv (e : Env) : Env := .mk [] [] none (some e)

/-- The walk `SetInPlace` performs, as a predicate: does `name` resolve
(store first, then active-instance fields, then outer) to a binding
marked constant?  Exactly when this holds does `SetInPlace` report a
ConstantViolation. -/
def resolvesToConst (h : Heap) : Env → String → Bool
  | .mk st c i o, name =>
    match lookupA name st with
    | some _ => constMem name c
    | none =>
      match instOwner h i name with
      | some _ => false
      | none =>
        match o with
        | some oEnv => resolvesToConst h oEnv name
        | none => false

/-- `isError`: is the object the Error control signal? -/
def isError : Obj → Bool
  | .errV _ => true
  | _ => false

/-- The check `evalStatements` performs after each statement:
`result.Type() == RETURN_VALUE_OBJ || result.Type() == ERROR_OBJ`. -/
def isSignal : Obj → Bool
  | .retV _ => true
  | .errV _ => true
  | _ => false

/-- `isTruthy`: Null is false, a Boolean is its own truth, everything
else is truthy. -/
def isTruthy : Obj → Bool
  | .nullV => false
  | .boolV b => b
  | _ => true

/-- `unwrapReturnValue`: strip one `ReturnValue` wrapper. -/
def unwrapReturnValue : Obj → Obj
  | .retV v => v
  | o => o

/-- `Object.Type()` as a string, for error messages. -/
def typeName : Obj → String
  | .intV _ => "INTEGER"
  | .realV _ => "REAL"
  | .strV _ => "STRING"
  | .charV _ => "CHAR"
  | .boolV _ => "BOOLEAN"
  | .nullV => "NULL"
  | .errV _ => "ERROR"
  | .retV _ => "RETURN_VALUE"
  | .funcV _ => "FUNCTION"
  | .procV _ => "PROCEDURE"
  | .classV _ => "CLASS"
  | .instV _ => "INSTANCE"
  | .boundV _ _ => "BOUND_METHOD"
  | .superV _ _ => "SUPER"

/-- `objectsEqual`: structural equality across the five scalar kinds
only; every other pairing (mismatched types included) is unequal. -/
def objectsEqual : Obj → Obj → Bool
  | .intV a, .intV b => a == b
  | .realV a, .realV b => a == b
  | .strV a, .strV b => a == b
  | .charV a, .charV b => a == b
  | .boolV a, .boolV b => a == b
  | _, _ => false

/-- `valueInRange`: inclusive range membership for Integer or Char
subjects with same-typed bounds; anything else does not match. -/
def valueInRange : Obj → Obj → Obj → Bool
  | .intV v, .intV s, .intV e => s ≤ v ∧ v ≤ e
  | .charV v, .charV s, .charV e => s ≤ v ∧ v ≤ e
  | _, _, _ => false

/-- Shortest-form rendering of a Go `float64` (`%g`); the claims never
depend on this text, so the model renders the exact rational. -/
def realToString (q : ℚ) : String := toString q

/-- `Object.Inspect()` for the objects whose rendering needs no heap
access (everything except instances and bound methods). -/
def inspectNoHeap : Obj → String
  | .intV n => toString n
  | .realV q => realToString q
  | .strV s => s
  | .charV c => String.singleton c
  | .boolV b => if b then "TRUE" else "FALSE"
  | .nullV => "NULL"
  | .retV v => inspectNoHeap v
  | .errV m => "ERROR: " ++ m
  | .funcV (.mk n ps _ _) =>
    "FUNCTION " ++ n ++ "(" ++ String.intercalate ", " (ps.map Param.name) ++ ")"
  | .procV (.mk n ps _ _) =>
    "PROCEDURE " ++ n ++ "(" ++ String.intercalate ", " (ps.map Param.name) ++ ")"
  | .classV c => "CLASS " ++ c.name
  | .instV _ => "<instance>"
  | .boundV _ _ => "<bound method>"
  | .superV _ _ => "SUPER"

/-- `objectToString`: the per-type stringification used by the `&`
concatenation operator. -/
def objectToString (o : Obj) : String :=
  match o with
  | .strV s => s
  | .charV c => String.singleton c
  | .intV n => toString n
  | .realV q => realToString q
  | .boolV b => if b then "TRUE" else "FALSE"
  | o => inspectNoHeap o

/-- `Object.Inspect()`; instance and bound-method renderings follow the
class pointer, i.e. read the heap. -/
def inspectObj (h : Heap) : Obj → String
  | .instV r =>
    match heapLookup h r with
    | some d => "<" ++ d.cls.name ++ " instance>"
    | none => "<instance>"
  | .boundV r _ =>
    match heapLookup h r with
    | some d => "<bound method of " ++ d.cls.name ++ ">"
    | none => "<bound method>"
  | .retV v => inspectObj h v
  | o => inspectNoHeap o

/-- `evalIntegerInfixExpression`: both operands Integer.  `/` divides by
zero to an Error and otherwise always produces a Real; DIV and MOD are
Go's truncated division and remainder; comparisons give Booleans. -/
def evalIntBin (op : String) (a b : Int) : Obj :=
  match op with
  | "+" => .intV (a + b)
  | "-" => .intV (a - b)
  | "*" => .intV (a * b)
  | "/" => if b = 0 then .errV "division by zero" else .realV ((a : ℚ) / (b : ℚ))
  | "DIV" => if b = 0 then .errV "division by zero" else .intV (Int.tdiv a b)
  | "MOD" => if b = 0 then .errV "division by zero" else .intV (Int.tmod a b)
  | "<" => .boolV (a < b)
  | ">" => .boolV (a > b)
  | "<=" => .boolV (a ≤ b)
  | ">=" => .boolV (a ≥ b)
  | "=" => .boolV (a = b)
  | "<>" => .boolV (a ≠ b)
  | _ => .errV ("unknown operator: INTEGER " ++ op ++ " INTEGER")

/-- The Integer→Real promotion `evalRealInfixExpression` applies to each
operand (a non-numeric operand reads as 0, exactly as the uninitialised
Go local does; the dispatcher only sends numeric pairs here). -/
def toRealVal : Obj → ℚ
  | .realV q => q
  | .intV n => (n : ℚ)
  | _ => 0

/-- `evalRealInfixExpression`: at least one operand Real, the other
promoted.  `/` by zero is an Error. -/
def evalRealBin (op : String) (l r : Obj) : Obj :=
  let a := toRealVal l
  let b := toRealVal r
  match op with
  | "+" => .realV (a + b)
  | "-" => .realV (a - b)
  | "*" => .realV (a * b)
  | "/" => if b = 0 then .errV "division by zero" else .realV (a / b)
  | "<" => .boolV (a < b)
  | ">" => .boolV (a > b)
  | "<=" => .boolV (a ≤ b)
  | ">=" => .boolV (a ≥ b)
  | "=" => .boolV (a = b)
  | "<>" => .boolV (a ≠ b)
  | _ => .errV ("unknown operator: " ++ typeName l ++ " " ++ op ++ " " ++ typeName r)

/-- `evalStringInfixExpression`: both operands String. -/
def evalStringBin (op : String) (a b : String) : Obj :=
  match op with
  | "&" => .strV (a ++ b)
  | "=" => .boolV (a = b)
  | "<>" => .boolV (a ≠ b)
  | "<" => .boolV (a < b)
  | ">" => .boolV (b < a)
  | "<=" => .boolV (a ≤ b)
  | ">=" => .boolV (b ≤ a)
  | _ => .errV ("unknown operator: STRING " ++ op ++ " STRING")

/-- `evalBooleanInfixExpression`: both operands Boolean. -/
def evalBoolBin (op : String) (a b : Bool) : Obj :=
  match op with
  | "AND" => .boolV (a && b)
  | "OR" => .boolV (a || b)
  | "=" => .boolV (a = b)
  | "<>" => .boolV (a ≠ b)
  | _ => .errV ("unknown operator: BOOLEAN " ++ op ++ " BOOLEAN")

/-- The type-pair dispatch of `evalInfixExpression`, applied to the two
already-evaluated operands: Integer pair, then either-Real, then String
pair, then Boolean pair, then the `&` stringify-both fallback, then the
structural-equality fallback for `=`/`<>`, else a TypeMismatch error. -/
def evalBinObjs (op : String) (l r : Obj) : Obj :=
  match l, r with
  | .intV a, .intV b => evalIntBin op a b
  | _, _ =>
    if typeName l = "REAL" ∨ typeName r = "REAL" then evalRealBin op l r
    else
      match l, r with
      | .strV a, .strV b => evalStringBin op a b
      | _, _ =>
        match l, r with
        | .boolV a, .boolV b => evalBoolBin op a b
        | _, _ =>
          if op = "&" then .strV (objectToString l ++ objectToString r)
          else if op = "=" then .boolV (objectsEqual l r)
          else if op = "<>" then .boolV (!objectsEqual l r)
          else .errV ("type mismatch: " ++ typeName l ++ " " ++ op ++ " " ++ typeName r)

/-- `evalMinusPrefixOperator`. -/
def evalMinusOp : Obj → Obj
  | .intV n => .intV (-n)
  | .realV q => .realV (-q)
  | o => .errV ("unknown operator: -" ++ typeName o)

/-- `evalNotOperator`. -/
def evalNotOp : Obj → Obj
  | .boolV b => .boolV (!b)
  | o => .errV ("unknown operator: NOT " ++ typeName o)

/-- The zero value `evalDeclareStatement` gives a freshly declared
variable of a primitive type; unknown names fall to Null (DATE and the
non-primitive declared types are outside the embedded fragment). -/
def declaredValue (dtype : String) : Obj :=
  match dtype with
  | "INTEGER" => .intV 0
  | "REAL" => .realV 0
  | "STRING" => .strV ""
  | "CHAR" => .charV ' '
  | "BOOLEAN" => .boolV false
  | _ => .nullV

/-- The input stream and observable effects threaded through the
evaluator: instance heap, the next fresh instance reference, the lines
written by OUTPUT, and the remaining standard-input characters. -/
structure IState where
  insts : Heap
  nextRef : Nat
  output : List String
  input : List Char

/-- Split standard input at the first newline, keeping the delimiter
out of the returned line, as `bufio.Reader.ReadString` followed by the
CR/LF trim leaves only the line body to the left of the first `\n`. -/
def takeLine : List Char → List Char × List Char
  | [] => ([], [])
  | c :: rest =>
    if c = '\n' then ([], rest)
    else
      let r := takeLine rest
      (c :: r.1, r.2)

/-- `strings.TrimRight(line, "\r\n")`: drop every trailing CR or LF. -/
def trimCRLF (cs : List Char) : List Char :=
  ((cs.reverse.dropWhile (fun c => c = '\r' ∨ c = '\n'))).reverse

/-- The line `evalInputStatement` stores: read to the first newline,
then strip trailing CR/LF. -/
def readInputLine (cs : List Char) : String × List Char :=
  let t := takeLine cs
  (String.mk (trimCRLF t.1), t.2)

/-- The parameter-binding loop of `extendFunctionEnv`: positional, each
parameter bound only when an argument exists for its position, and the
BYREF branch performing exactly the same declaration as the BYVAL
branch (the Go comment calls this "a simplified implementation"). -/
def bindParams (e : Env) : List Param → List Obj → Env
  | [], _ => e
  | _ :: _, [] => e
  | p :: ps, a :: as =>
    bindParams (if p.byRef then envDeclare e p.name a else envDeclare e p.name a) ps as

/-- `extendFunctionEnv`: a fresh child scope of the callee's closure
environment, with parameters bound positionally. -/
def extendFunctionEnv (fnEnv : Env) (args : List Obj) (params : List Param) : Env :=
  bindParams (childEnv fnEnv) params args

/-- The parameter-binding loop of `applyBoundMethod` and of the
constructor call in `evalNewExpression` (no BYREF branch there). -/
def bindMethodParams (e : Env) : List Param → List Obj → Env
  | [], _ => e
  | _ :: _, [] => e
  | p :: ps, a :: as => bindMethodParams (envDeclare e p.name a) ps as

/-- `lookupMethod`: first match walking the class, then its parent,
then the grandparent, and so on. -/
def lookupMethod : ClassV → String → Option Obj
  | .mk _ parent ms _, name =>
    match lookupA name ms with
    | some m => some m
    | none =>
      match parent with
      | some p => lookupMethod p name
      | none => none

/-- Null-populate the declared fields of one class into an accumulator
field map. -/
def addNullFields (acc : List (String × Obj)) : List String → List (String × Obj)
  | [] => acc
  | n :: rest => addNullFields (insertA n Obj.nullV acc) rest

/-- `initializeInstanceFields`: parent-class fields first, then the
class's own fields, every one set to Null. -/
def initFields : ClassV → List (String × Obj)
  | .mk _ parent _ fs =>
    let base := match parent with
      | some p => initFields p
      | none => []
    addNullFields base fs

/-- The own-method pre-binding loop of `createMethodEnv`: every method
of the instance's class becomes a BoundMethod in the method scope. -/
def declareOwnMethods (e : Env) (ref : Nat) : List (String × Obj) → Env
  | [] => e
  | (n, m) :: rest => declareOwnMethods (envDeclare e n (.boundV ref m)) ref rest

/-- One ancestor's methods, bound only where the name is not already in
the method scope (child methods take precedence). -/
def declareIfAbsent (e : Env) (ref : Nat) : List (String × Obj) → Env
  | [] => e
  | (n, m) :: rest =>
    declareIfAbsent
      (if (lookupA n e.store).isSome then e else envDeclare e n (.boundV ref m))
      ref rest

/-- The inherited-method pre-binding loop of `createMethodEnv` from one
ancestor inward: bind this ancestor's methods where absent, then
continue with its parent. -/
def declareInheritedFrom (e : Env) (ref : Nat) : ClassV → Env
  | .mk _ parent ms _ =>
    let e2 := declareIfAbsent e ref ms
    match parent with
    | some p => declareInheritedFrom e2 ref p
    | none => e2

/-- The inherited-method pre-binding loop of `createMethodEnv`, walking
the ancestor chain outward starting at the optional parent. -/
def declareInherited (e : Env) (ref : Nat) : Option ClassV → Env
  | none => e
  | some p => declareInheritedFrom e ref p

/-- `createMethodEnv`: a fresh scope enclosed by the CALLER's
environment, with the active-instance back-reference set to the
receiver, `this` bound to the receiver, `SUPER` bound only when a
parent class exists, then the receiver's class's own methods and
finally the inherited methods (own taking precedence) pre-bound as
BoundMethods. -/
def createMethodEnv (ref : Nat) (d : InstData) (callerEnv : Env) : Env :=
  let e0 : Env := .mk [] [] (some ref) (some callerEnv)
  let e1 := envDeclare e0 "this" (.instV ref)
  let e2 := match d.cls.parent with
    | some p => envDeclare e1 "SUPER" (.superV ref p)
    | none => e1
  let e3 := declareOwnMethods e2 ref d.cls.methods
  declareInherited e3 ref d.cls.parent

/-- The member collection loop of `evalClassStatement`: DECLAREs feed
the field-name set, PROCEDUREs and FUNCTIONs feed the method map with
the class scope as their closure; every other member is ignored. -/
def collectMembers (classEnv : Env) : List Stmt → List (String × Obj) × List String →
    List (String × Obj) × List String
  | [], acc => acc
  | m :: rest, (ms, fs) =>
    match m with
    | .declareS n _ => collectMembers classEnv rest (ms, fs ++ [n])
    | .procS n ps body => collectMembers classEnv rest (insertA n (.procV (.mk n ps body classEnv)) ms, fs)
    | .funcS n ps body => collectMembers classEnv rest (insertA n (.funcV (.mk n ps body classEnv)) ms, fs)
    | _ => collectMembers classEnv rest (ms, fs)

/-- The `len(args) == 1 && isError(args[0])` check `evalCallExpression`
and `evalNewExpression` apply to the result of `evalExpressions`. -/
def checkArgsErr : List Obj → Option Obj
  | [a] => if isError a then some a else none
  | _ => none

/-- The Integer checks `evalForStatement` applies to the evaluated
start and end values once the step is determined: a non-Integer start
(checked first) or end aborts the statement with the corresponding
Error and the given state; Integer bounds continue into `cont` (the
loop itself). -/
def forCheck (s0 e0 : Obj) (cont : Int → Int → Obj × Env × IState) (env : Env) (st : IState) :
    Obj × Env × IState :=
  match s0 with
  | .intV a =>
    (match e0 with
     | .intV b => cont a b
     | _ => (.errV "FOR loop end must be an integer", env, st))
  | _ => (.errV "FOR loop start must be an integer", env, st)

mutual

/-- `evalExpression`: expression evaluation.  Expressions read the
environment and can affect the state (heap, output, input) but never
replace the caller's scope chain, so only the state is returned. -/
def evalExpr : Nat → Expr → Env → IState → Obj × IState
  | 0, _, _, st => (.errV "out of fuel", st)
  | m+1, e, env, st =>
    match e with
    | .intLit n => (.intV n, st)
    | .realLit q => (.realV q, st)
    | .strLit s => (.strV s, st)
    | .charLit s =>
      (match s.data with
       | c :: _ => (.charV c, st)
       | [] => (.charV ' ', st))
    | .boolLit b => (.boolV b, st)
    | .ident n =>
      (match envGet st.insts env n with
       | some v => (v, st)
       | none => (.errV ("identifier not found: " ++ n), st))
    | .unaryE op right =>
      let p := evalExpr m right env st
      if isError p.1 then p
      else if op = "-" then (evalMinusOp p.1, p.2)
      else if op = "NOT" then (evalNotOp p.1, p.2)
      else (.errV ("unknown operator: " ++ op), p.2)
    | .binaryE op l r =>
      let pl := evalExpr m l env st
      if isError pl.1 then pl
      else
        let pr := evalExpr m r env pl.2
        if isError pr.1 then pr
        else (evalBinObjs op pl.1 pr.1, pr.2)
    | .memberE objE member =>
      let p := evalExpr m objE env st
      if isError p.1 then p
      else
        match p.1 with
        | .instV ref =>
          (match heapLookup p.2.insts ref with
           | some d =>
             (match lookupA member d.fields with
              | some v => (v, p.2)
              | none =>
                match lookupMethod d.cls member with
                | some mth => (.boundV ref mth, p.2)
                | none => (.errV ("member not found: " ++ member), p.2))
           | none => (.errV ("member not found: " ++ member), p.2))
        | .superV ref cls =>
          (match lookupMethod cls member with
           | some mth => (.boundV ref mth, p.2)
           | none => (.errV ("method not found in parent class: " ++ member), p.2))
        | _ => (.errV "cannot access member of non-record/instance", p.2)
    | .callE callee args =>
      let pf := evalExpr m callee env st
      if isError pf.1 then pf
      else
        let pa := evalExprList m args env pf.2
        match checkArgsErr pa.1 with
        | some er => (er, pa.2)
        | none => applyFunction m pf.1 pa.1 env pa.2
    | .newE cname args =>
      (match envGet st.insts env cname with
       | some (.classV cls) =>
         let ref := st.nextRef
         let flds := initFields cls
         let st1 : IState := ⟨st.insts ++ [(ref, ⟨cls, flds⟩)], ref + 1, st.output, st.input⟩
         (match lookupA "NEW" cls.methods with
          | some ctor =>
            let pa := evalExprList m args env st1
            (match checkArgsErr pa.1 with
             | some er => (er, pa.2)
             | none =>
               match ctor with
               | .procV (.mk _ ps body _) =>
                 let ctorEnv := bindMethodParams (createMethodEnv ref ⟨cls, flds⟩ env) ps pa.1
                 let t := evalStmtList m body ctorEnv pa.2
                 (.instV ref, t.2.2)
               | _ => (.instV ref, pa.2))
          | none => (.instV ref, st1))
       | some _ => (.errV (cname ++ " is not a class"), st)
       | none => (.errV ("class not found: " ++ cname), st))
    | .superE =>
      (match envGet st.insts env "SUPER" with
       | some v => (v, st)
       | none => (.errV "SUPER can only be used within a class method", st))
    | .rangeE _ _ => (.errV "unknown expression type: range", st)

/-- `evalExpressions`: left-to-right evaluation, collapsing to the
singleton error list the moment any element fails. -/
def evalExprList : Nat → List Expr → Env → IState → List Obj × IState
  | 0, _, _, st => ([.errV "out of fuel"], st)
  | _+1, [], _, st => ([], st)
  | m+1, e :: rest, env, st =>
    let p := evalExpr m e env st
    if isError p.1 then ([p.1], p.2)
    else
      let pr := evalExprList m rest env p.2
      (p.1 :: pr.1, pr.2)

/-- `applyFunction`: dispatch a call on the callee's runtime type.
Functions and Procedures receive exactly the same treatment — a fresh
scope extending their closure, positional parameter binding, body
execution, then `unwrapReturnValue` on the outcome. -/
def applyFunction : Nat → Obj → List Obj → Env → IState → Obj × IState
  | 0, _, _, _, st => (.errV "out of fuel", st)
  | m+1, fn, args, callerEnv, st =>
    match fn with
    | .funcV (.mk _ ps body fenv) =>
      let t := evalStmtList m body (extendFunctionEnv fenv args ps) st
      (unwrapReturnValue t.1, t.2.2)
    | .procV (.mk _ ps body fenv) =>
      let t := evalStmtList m body (extendFunctionEnv fenv args ps) st
      (unwrapReturnValue t.1, t.2.2)
    | .boundV ref mth => applyBoundMethod m ref mth args callerEnv st
    | _ => (.errV ("not a function: " ++ typeName fn), st)

/-- `applyBoundMethod`: re-derive a fresh method environment from the
receiver and the CALLER's environment, bind parameters, run the body,
unwrap a trailing ReturnValue. -/
def applyBoundMethod : Nat → Nat → Obj → List Obj → Env → IState → Obj × IState
  | 0, _, _, _, _, st => (.errV "out of fuel", st)
  | m+1, ref, mth, args, callerEnv, st =>
    match heapLookup st.insts ref with
    | none => (.errV "invalid method type", st)
    | some d =>
      let menv := createMethodEnv ref d callerEnv
      match mth with
      | .funcV (.mk _ ps body _) =>
        let t := evalStmtList m body (bindMethodParams menv ps args) st
        (unwrapReturnValue t.1, t.2.2)
      | .procV (.mk _ ps body _) =>
        let t := evalStmtList m body (bindMethodParams menv ps args) st
        (unwrapReturnValue t.1, t.2.2)
      | _ => (.errV "invalid method type", st)

/-- `matchesCaseValue`: a Range selector evaluates both bounds and
tests inclusively; any other selector evaluates and compares by
`objectsEqual`.  Selector evaluation errors are not propagated (the Go
helper returns only a boolean). -/
def matchCaseValue : Nat → Obj → Expr → Env → IState → Bool × IState
  | 0, _, _, _, st => (false, st)
  | m+1, v, cv, env, st =>
    match cv with
    | .rangeE lo hi =>
      let ps := evalExpr m lo env st
      let pe := evalExpr m hi env ps.2
      (valueInRange v ps.1 pe.1, pe.2)
    | other =>
      let p := evalExpr m other env st
      (objectsEqual v p.1, p.2)

/-- The inner selector loop of `evalCaseStatement`: first matching
selector of a clause wins. -/
def matchValueList : Nat → Obj → List Expr → Env → IState → Bool × IState
  | 0, _, _, _, st => (false, st)
  | _+1, _, [], _, st => (false, st)
  | m+1, v, cv :: rest, env, st =>
    let p := matchCaseValue m v cv env st
    if p.1 then (true, p.2) else matchValueList m v rest env p.2

/-- The clause loop of `evalCaseStatement`: scan top to bottom, execute
the body of the first clause with a matching selector; `none` reports
that no clause matched. -/
def matchClauses : Nat → Obj → List (List Expr × List Stmt) → Env → IState →
    Option (Obj × Env) × IState
  | 0, _, _, env, st => (some (.errV "out of fuel", env), st)
  | _+1, _, [], _, st => (none, st)
  | m+1, v, (vals, body) :: rest, env, st =>
    let p := matchValueList m v vals env st
    if p.1 then
      let t := evalStmtList m body env p.2
      (some (t.1, t.2.1), t.2.2)
    else matchClauses m v rest env p.2

/-- `evalStatement`: the statement dispatcher. -/
def evalStmt : Nat → Stmt → Env → IState → Obj × Env × IState
  | 0, _, env, st => (.errV "out of fuel", env, st)
  | m+1, s, env, st =>
    match s with
    | .declareS name dtype =>
      let v := declaredValue dtype
      (v, envDeclare env name v, st)
    | .constantS name value =>
      let p := evalExpr m value env st
      if isError p.1 then (p.1, env, p.2)
      else (p.1, envDeclareConstant env name p.1, p.2)
    | .assignS target value =>
      let p := evalExpr m value env st
      if isError p.1 then (p.1, env, p.2)
      else
        match target with
        | .ident n =>
          let w := envSetInPlace p.2.insts env n p.1
          (w.2.2, w.1, ⟨w.2.1, p.2.nextRef, p.2.output, p.2.input⟩)
        | .memberE objE member =>
          let po := evalExpr m objE env p.2
          if isError po.1 then (po.1, env, po.2)
          else
            match po.1 with
            | .instV ref =>
              (p.1, env, ⟨heapSetField po.2.insts ref member p.1, po.2.nextRef, po.2.output, po.2.input⟩)
            | _ => (.errV "cannot access member of non-record/instance", env, po.2)
        | _ => (.errV "invalid assignment target", env, p.2)
    | .ifS cond cons alt =>
      let p := evalExpr m cond env st
      if isError p.1 then (p.1, env, p.2)
      else if isTruthy p.1 then evalStmtList m cons env p.2
      else
        match alt with
        | some a => evalStmtList m a env p.2
        | none => (.nullV, env, p.2)
    | .caseS subj clauses otherw =>
      let p := evalExpr m subj env st
      if isError p.1 then (p.1, env, p.2)
      else
        let q := matchClauses m p.1 clauses env p.2
        match q.1 with
        | some (r, env2) => (r, env2, q.2)
        | none =>
          match otherw with
          | some o => evalStmtList m o env q.2
          | none => (.nullV, env, q.2)
    | .forS v sE eE stepE body =>
      let ps := evalExpr m sE env st
      if isError ps.1 then (ps.1, env, ps.2)
      else
        let pe := evalExpr m eE env ps.2
        if isError pe.1 then (pe.1, env, pe.2)
        else
          match stepE with
          | some se =>
            let pst := evalExpr m se env pe.2
            if isError pst.1 then (pst.1, env, pst.2)
            else
              match pst.1 with
              | .intV k =>
                forCheck ps.1 pe.1 (fun a b => forRun m v a b k body env pst.2) env pst.2
              | _ =>
                forCheck ps.1 pe.1 (fun a b => forRun m v a b 1 body env pst.2) env pst.2
          | none => forCheck ps.1 pe.1 (fun a b => forRun m v a b 1 body env pe.2) env pe.2
    | .whileS cond body => whileLoop m cond body env st .nullV
    | .repeatS body cond => repeatLoop m body cond env st
    | .procS name ps body =>
      let p := Obj.procV (.mk name ps body env)
      (p, envDeclare env name p, st)
    | .funcS name ps body =>
      let f := Obj.funcV (.mk name ps body env)
      (f, envDeclare env name f, st)
    | .callS callee args =>
      let pf := evalExpr m callee env st
      if isError pf.1 then (pf.1, env, pf.2)
      else
        let pa := evalExprList m args env pf.2
        match checkArgsErr pa.1 with
        | some er => (er, env, pa.2)
        | none =>
          let r := applyFunction m pf.1 pa.1 env pa.2
          (r.1, env, r.2)
    | .returnS value =>
      (match value with
       | none => (.retV .nullV, env, st)
       | some e =>
         let p := evalExpr m e env st
         if isError p.1 then (p.1, env, p.2)
         else (.retV p.1, env, p.2))
    | .inputS target =>
      let l := readInputLine st.input
      (match target with
       | .ident n =>
         let w := envSetInPlace st.insts env n (.strV l.1)
         (.nullV, w.1, ⟨w.2.1, st.nextRef, st.output, l.2⟩)
       | _ => (.nullV, env, ⟨st.insts, st.nextRef, st.output, l.2⟩))
    | .outputS values =>
      let r := outputVals m values env st ""
      (r.1, env, r.2)
    | .classS name parentName members =>
      let parentC : Option ClassV :=
        if parentName = "" then none
        else
          match envGet st.insts env parentName with
          | some (.classV p) => some p
          | _ => none
      let ms := collectMembers (childEnv env) members ([], [])
      let c := Obj.classV (.mk name parentC ms.1 ms.2)
      (c, envDeclare env name c, st)
    | .exprS e =>
      let p := evalExpr m e env st
      (p.1, env, p.2)

/-- `evalStatements`: run a statement list, returning the last produced
value, short-circuiting with the first Error or ReturnValue. -/
def evalStmtList : Nat → List Stmt → Env → IState → Obj × Env × IState
  | 0, _, env, st => (.errV "out of fuel", env, st)
  | _+1, [], env, st => (.nullV, env, st)
  | m+1, [s], env, st => evalStmt m s env st
  | m+1, s :: rest, env, st =>
    let t := evalStmt m s env st
    if isSignal t.1 then t
    else evalStmtList m rest t.2.1 t.2.2

/-- The tail of `evalForStatement` once the step is determined and the
bounds have passed the Integer checks: create the loop scope, declare
the loop variable, run the loop, and surface the possibly mutated
enclosing scope (the parent of the loop scope). -/
def forRun : Nat → String → Int → Int → Int → List Stmt → Env → IState → Obj × Env × IState
  | 0, _, _, _, _, _, env, st => (.errV "out of fuel", env, st)
  | m+1, v, a, b, step, body, env, st =>
    let loopEnv := envDeclare (childEnv env) v (.intV a)
    let t := forLoop m v a b step body loopEnv st .nullV
    (t.1, (match t.2.1.outer with | some o => o | none => env), t.2.2)

/-- The iteration loop of `evalForStatement`: stop when the counter has
passed the bound in the direction of the step (a zero step with the
counter inside the bound never stops — the Go loop diverges, the model
exhausts its fuel); otherwise write the counter into the loop scope,
run the body, propagate an Error or ReturnValue, else advance. -/
def forLoop : Nat → String → Int → Int → Int → List Stmt → Env → IState → Obj →
    Obj × Env × IState
  | 0, _, _, _, _, _, loopEnv, st, _ => (.errV "out of fuel", loopEnv, st)
  | m+1, v, current, endV, step, body, loopEnv, st, prev =>
    if 0 < step ∧ endV < current then (prev, loopEnv, st)
    else if step < 0 ∧ current < endV then (prev, loopEnv, st)
    else
      let w := envSetInPlace st.insts loopEnv v (.intV current)
      let t := evalStmtList m body w.1 ⟨w.2.1, st.nextRef, st.output, st.input⟩
      if isError t.1 then t
      else
        match t.1 with
        | .retV _ => t
        | _ => forLoop m v (current + step) endV step body t.2.1 t.2.2 t.1

/-- The iteration loop of `evalWhileStatement`. -/
def whileLoop : Nat → Expr → List Stmt → Env → IState → Obj → Obj × Env × IState
  | 0, _, _, env, st, _ => (.errV "out of fuel", env, st)
  | m+1, cond, body, env, st, prev =>
    let p := evalExpr m cond env st
    if isError p.1 then (p.1, env, p.2)
    else if !isTruthy p.1 then (prev, env, p.2)
    else
      let t := evalStmtList m body env p.2
      if isError t.1 then t
      else
        match t.1 with
        | .retV _ => t
        | _ => whileLoop m cond body t.2.1 t.2.2 t.1

/-- The iteration loop of `evalRepeatStatement`: body first, condition
after, stop when the condition is truthy. -/
def repeatLoop : Nat → List Stmt → Expr → Env → IState → Obj × Env × IState
  | 0, _, _, env, st => (.errV "out of fuel", env, st)
  | m+1, body, cond, env, st =>
    let t := evalStmtList m body env st
    if isError t.1 then t
    else
      match t.1 with
      | .retV _ => t
      | _ =>
        let p := evalExpr m cond t.2.1 t.2.2
        if isError p.1 then (p.1, t.2.1, p.2)
        else if isTruthy p.1 then (t.1, t.2.1, p.2)
        else repeatLoop m body cond t.2.1 p.2

/-- The value loop of `evalOutputStatement`: evaluate each value,
append its `Inspect` rendering, and emit one output line at the end;
an evaluation error aborts the statement with no line written. -/
def outputVals : Nat → List Expr → Env → IState → String → Obj × IState
  | 0, _, _, st, _ => (.errV "out of fuel", st)
  | _+1, [], _, st, acc => (.nullV, ⟨st.insts, st.nextRef, st.output ++ [acc], st.input⟩)
  | m+1, e :: rest, env, st, acc =>
    let p := evalExpr m e env st
    if isError p.1 then (p.1, p.2)
    else outputVals m rest env p.2 (acc ++ inspectObj p.2.insts p.1)

end

/-! ## Shared concrete anchors for witnesses and counterexamples -/

/-- The empty global scope. -/
def emptyEnv : Env := .mk [] [] none none

/-- The initial interpreter state: no instances, no output, no input. -/
def emptyState : IState := ⟨[], 0, [], []⟩

/-! ## C6: numeric promotion, `/` producing Real, DIV/MOD, zero divisors -/

/-- **C6.**  Integer `/` always yields a Real, even for exact division:
`5 / 2` is Real `2.5` and in general `a / b` is the Real `a / b` for
any nonzero `b`.  `10 DIV 3` is Integer `3`, `10 MOD 3` is Integer `1`,
and `5 DIV 0`, `5 MOD 0`, `5.0 / 0.0` each evaluate to the
division-by-zero Error.  A Real operand sends a mixed pair down the
Real rule, promoting the Integer operand to Real. -/
theorem claim6_numeric_division_and_promotion :
    (∀ (m : Nat) (env : Env) (st : IState),
      evalExpr (m+2) (.binaryE "/" (.intLit 5) (.intLit 2)) env st = (.realV 2.5, st)) ∧
    (∀ a b : Int, b ≠ 0 →
      evalBinObjs "/" (.intV a) (.intV b) = .realV ((a : ℚ) / (b : ℚ))) ∧
    (∀ (m : Nat) (env : Env) (st : IState),
      evalExpr (m+2) (.binaryE "DIV" (.intLit 10) (.intLit 3)) env st = (.intV 3, st)) ∧
    (∀ (m : Nat) (env : Env) (st : IState),
      evalExpr (m+2) (.binaryE "MOD" (.intLit 10) (.intLit 3)) env st = (.intV 1, st)) ∧
    (∀ (m : Nat) (env : Env) (st : IState),
      evalExpr (m+2) (.binaryE "DIV" (.intLit 5) (.intLit 0)) env st
        = (.errV "division by zero", st)) ∧
    (∀ (m : Nat) (env : Env) (st : IState),
      evalExpr (m+2) (.binaryE "MOD" (.intLit 5) (.intLit 0)) env st
        = (.errV "division by zero", st)) ∧
    (∀ (m : Nat) (env : Env) (st : IState),
      evalExpr (m+2) (.binaryE "/" (.realLit 5) (.realLit 0)) env st
        = (.errV "division by zero", st)) ∧
    (∀ (n : Int) (q : ℚ),
      evalBinObjs "+" (.intV n) (.realV q) = .realV ((n : ℚ) + q) ∧
      evalBinObjs "+" (.realV q) (.intV n) = .realV (q + (n : ℚ)) ∧
      evalBinObjs "*" (.intV n) (.realV q) = .realV ((n : ℚ) * q)) := by
  refine ⟨?_, ?_, ?_, ?_, ?_, ?_, ?_, ?_⟩
  · intro m env st
    simp [evalExpr, evalBinObjs, evalIntBin, isError]
    norm_num
  · intro a b hb
    simp [evalBinObjs, evalIntBin, hb]
  · intro m env st
    simp [evalExpr, evalBinObjs, evalIntBin, isError]
    decide
  · intro m env st
    simp [evalExpr, evalBinObjs, evalIntBin, isError]
    decide
  · intro m env st
    simp [evalExpr, evalBinObjs, evalIntBin, isError]
  · intro m env st
    simp [evalExpr, evalBinObjs, evalIntBin, isError]
  · intro m env st
    simp [evalExpr, evalBinObjs, evalRealBin, typeName, toRealVal, isError]
  · intro n q
    refine ⟨?_, ?_, ?_⟩ <;> simp [evalBinObjs, evalRealBin, typeName, toRealVal]

/-- Witness for C6: the general exact-division conjunct applied at
`7 / 2`, hypothesis `2 ≠ 0` discharged concretely. -/
theorem claim6_witness :
    evalBinObjs "/" (.intV 7) (.intV 2) = .realV ((7 : ℚ) / (2 : ℚ)) :=
  claim6_numeric_division_and_promotion.2.1 7 2 (by norm_num)

/-! ## Environment-chain lemmas (for C4, C7, C8, C9) -/

/-- Does any scope or active instance along the `SetInPlace` walk own
`name`?  (`SetInPlace` creates a fresh binding exactly when this is
false.) -/
def ownerExists (h : Heap) : Env → String → Bool
  | .mk st _ i o, name =>
    match lookupA name st with
    | some _ => true
    | none =>
      match instOwner h i name with
      | some _ => true
      | none =>
        match o with
        | some oe => ownerExists h oe name
        | none => false

/-- Add a binding to the outermost (root) scope of a chain, leaving
every inner scope untouched. -/
def addToRoot : Env → String → Obj → Env
  | .mk st c i none, name, v => .mk (insertA name v st) c i none
  | .mk st c i (some o), name, v => .mk st c i (some (addToRoot o name v))

/-- When no scope or instance owns `name`, `SetInPlace` walks to the
outermost scope and creates the binding there, leaving the heap alone. -/
theorem setInPlace_unbound : ∀ (h : Heap) (env : Env) (name : String) (v : Obj),
    ownerExists h env name = false →
    envSetInPlace h env name v = (addToRoot env name v, h, v)
  | h, .mk st c i none, name, v, hyp => by
    rw [ownerExists.eq_2] at hyp
    rw [envSetInPlace.eq_2]
    cases hlk : lookupA name st with
    | some u => rw [hlk] at hyp; simp at hyp
    | none =>
      cases hio : instOwner h i name with
      | some r => rw [hlk, hio] at hyp; simp at hyp
      | none => simp [addToRoot]
  | h, .mk st c i (some oe), name, v, hyp => by
    rw [ownerExists.eq_1] at hyp
    rw [envSetInPlace.eq_1]
    cases hlk : lookupA name st with
    | some u => rw [hlk] at hyp; simp at hyp
    | none =>
      cases hio : instOwner h i name with
      | some r => rw [hlk, hio] at hyp; simp at hyp
      | none =>
        rw [hlk] at hyp; rw [hio] at hyp; simp at hyp
        have ih := setInPlace_unbound h oe name v hyp
        simp [ih, addToRoot]

/-- When the `SetInPlace` walk resolves `name` to a binding marked
constant, the result is the ConstantViolation error and both the scope
chain and the heap are returned unchanged. -/
theorem setInPlace_const : ∀ (h : Heap) (env : Env) (name : String) (v : Obj),
    resolvesToConst h env name = true →
    envSetInPlace h env name v = (env, h, .errV ("cannot modify constant: " ++ name))
  | h, .mk st c i none, name, v, hyp => by
    rw [resolvesToConst.eq_2] at hyp
    rw [envSetInPlace.eq_2]
    cases hlk : lookupA name st with
    | some u =>
      rw [hlk] at hyp; simp at hyp
      simp [hyp]
    | none =>
      cases hio : instOwner h i name with
      | some r => rw [hlk, hio] at hyp; simp at hyp
      | none => rw [hlk, hio] at hyp; simp at hyp
  | h, .mk st c i (some oe), name, v, hyp => by
    rw [resolvesToConst.eq_1] at hyp
    rw [envSetInPlace.eq_1]
    cases hlk : lookupA name st with
    | some u =>
      rw [hlk] at hyp; simp at hyp
      simp [hyp]
    | none =>
      cases hio : instOwner h i name with
      | some r => rw [hlk, hio] at hyp; simp at hyp
      | none =>
        rw [hlk] at hyp; rw [hio] at hyp; simp at hyp
        have ih := setInPlace_const h oe name v hyp
        simp [ih]

/-- When the current scope's own store holds `name` and has not marked
it constant, `SetInPlace` overwrites that store and touches nothing
else: same constants, same instance link, same outer chain, same heap. -/
theorem setInPlace_local (h : Heap) (st : List (String × Obj)) (c : List String)
    (i : Option Nat) (o : Option Env) (name : String) (v : Obj) (u : Obj)
    (hlk : lookupA name st = some u) (hc : constMem name c = false) :
    envSetInPlace h (.mk st c i o) name v = (.mk (insertA name v st) c i o, h, v) := by
  cases o with
  | none => rw [envSetInPlace.eq_2, hlk]; simp [hc]
  | some oe => rw [envSetInPlace.eq_1, hlk]; simp [hc]

/-! ## C4: where ordinary assignment creates an unbound name -/

/-- **C4, counterexample.**  In a two-scope chain (an empty current
scope whose parent is the empty global scope), assigning to the unbound
name `x` does NOT create the binding in the current scope: the walk
bottoms out at the outermost scope and creates `x` there, leaving the
current scope's store empty. -/
theorem claim4_counterexample_unbound_created_in_root :
    envSetInPlace [] (.mk [] [] none (some (.mk [] [] none none))) "x" (.intV 9)
      = (.mk [] [] none (some (.mk [("x", .intV 9)] [] none none)), [], .intV 9)
    ∧ lookupA "x"
        ((envSetInPlace [] (.mk [] [] none (some (.mk [] [] none none))) "x" (.intV 9)).1.store)
      = none :=
  ⟨rfl, rfl⟩

/-- **C4, amended.**  `SetInPlace` on a name owned by no scope and no
active instance creates the binding in the OUTERMOST scope of the chain
(the recursion bottoms out at the root), not in the scope where the
assignment executes; and when the current scope's store owns the name
(not marked constant), that store is mutated in place with the rest of
the chain and the heap untouched. -/
theorem claim4_set_in_place_amended :
    (∀ (h : Heap) (env : Env) (name : String) (v : Obj),
      ownerExists h env name = false →
      envSetInPlace h env name v = (addToRoot env name v, h, v)) ∧
    (∀ (h : Heap) (st : List (String × Obj)) (c : List String) (i : Option Nat)
       (o : Option Env) (name : String) (v u : Obj),
      lookupA name st = some u → constMem name c = false →
      envSetInPlace h (.mk st c i o) name v = (.mk (insertA name v st) c i o, h, v)) :=
  ⟨setInPlace_unbound, fun h st c i o name v u hu hc => setInPlace_local h st c i o name v u hu hc⟩

/-- Witness for C4: both conjuncts applied at concrete inputs — the
unbound name `y` lands in the root of a two-scope chain, and the bound
name `z` is overwritten in its owning scope. -/
theorem claim4_witness :
    envSetInPlace [] (.mk [] [] none (some (.mk [] [] none none))) "y" (.intV 1)
      = (addToRoot (.mk [] [] none (some (.mk [] [] none none))) "y" (.intV 1), [], .intV 1)
    ∧ envSetInPlace [] (.mk [("z", .intV 0)] [] none none) "z" (.intV 2)
      = (.mk (insertA "z" (.intV 2) [("z", .intV 0)]) [] none none, [], .intV 2) :=
  ⟨claim4_set_in_place_amended.1 [] (.mk [] [] none (some (.mk [] [] none none))) "y" (.intV 1) rfl,
   claim4_set_in_place_amended.2 [] [("z", .intV 0)] [] none none "z" (.intV 2) (.intV 0) rfl rfl⟩

/-! ## C7: assigning to CONSTANT-declared names -/

/-- The scope that declared the constant (`CONSTANT C = 1` at top
level), and a child scope that re-declares `C` as an ordinary variable
(as a `DECLARE` inside a function body does). -/
def constRootEnv : Env := envDeclareConstant emptyEnv "C" (.intV 1)

/-- A child scope of `constRootEnv` shadowing `C` with a plain
declaration. -/
def shadowChildEnv : Env := envDeclare (childEnv constRootEnv) "C" (.intV 2)

/-- **C7, counterexample.**  `C` is declared via CONSTANT in the root
scope, yet an assignment to `C` executed in a nested child scope that
re-declares `C` succeeds: no ConstantViolation is produced and the
child's binding is overwritten.  The claim's "every subsequent
assignment … in any nested child scope yields a ConstantViolation"
is therefore false as stated. -/
theorem claim7_counterexample_shadowed_constant_assignable :
    isError (envSetInPlace [] shadowChildEnv "C" (.intV 5)).2.2 = false
    ∧ (envSetInPlace [] shadowChildEnv "C" (.intV 5)).2.2 = .intV 5
    ∧ (envSetInPlace [] shadowChildEnv "C" (.intV 5)).1
        = .mk [("C", .intV 5)] [] none (some (.mk [("C", .intV 1)] ["C"] none none)) :=
  ⟨rfl, rfl, rfl⟩

/-- **C7, amended.**  Assigning to a name that the `SetInPlace` walk
(store first, then active-instance fields, then outward) resolves to a
constant binding yields the ConstantViolation error, and both the scope
chain and the heap are unchanged by the failed assignment.  A child
scope that re-declares the name, or an instance field of the same name,
is written instead without any error. -/
theorem claim7_constant_violation_amended :
    ∀ (h : Heap) (env : Env) (name : String) (v : Obj),
      resolvesToConst h env name = true →
      envSetInPlace h env name v = (env, h, .errV ("cannot modify constant: " ++ name)) :=
  setInPlace_const

/-- Witness for C7: assignment to the unshadowed constant `C` from a
nested child scope errors and changes nothing. -/
theorem claim7_witness :
    envSetInPlace [] (childEnv constRootEnv) "C" (.intV 5)
      = (childEnv constRootEnv, [], .errV ("cannot modify constant: " ++ "C")) :=
  claim7_constant_violation_amended [] (childEnv constRootEnv) "C" (.intV 5) rfl

/-! ## Association-list and parameter-binding lemmas (for C5, C8) -/

/-- Looking up the just-inserted key finds the new value. -/
theorem lookupA_insertA_self {α : Type} (k : String) (v : α) :
    ∀ l : List (String × α), lookupA k (insertA k v l) = some v
  | [] => by simp [insertA, lookupA]
  | (k', v') :: rest => by
    by_cases hk : k' = k
    · simp [insertA, hk, lookupA]
    · simp [insertA, hk, lookupA, lookupA_insertA_self k v rest]

/-- Inserting one key does not remove any other key. -/
theorem lookupA_insertA_presence {α : Type} (k k' : String) (v : α) :
    ∀ l : List (String × α), (lookupA k l).isSome →
      (lookupA k (insertA k' v l)).isSome
  | [], hl => by simp [lookupA] at hl
  | (k0, v0) :: rest, hl => by
    by_cases h1 : k0 = k'
    · subst h1
      by_cases h2 : k0 = k
      · subst h2
        simp [insertA, lookupA]
      · simp [insertA, lookupA, h2] at hl ⊢
        exact hl
    · by_cases h2 : k0 = k
      · subst h2
        simp [insertA, h1, lookupA]
      · simp [insertA, h1, lookupA, h2] at hl ⊢
        exact lookupA_insertA_presence k k' v rest hl

/-- The parameter-binding fold declares names but never alters the
constant set, the instance link, or the parent pointer of the scope it
builds in. -/
theorem bindParams_skeleton : ∀ (ps : List Param) (args : List Obj) (e : Env),
    (bindParams e ps args).consts = e.consts ∧
    (bindParams e ps args).inst = e.inst ∧
    (bindParams e ps args).outer = e.outer
  | [], args, e => by simp [bindParams]
  | _ :: _, [], e => by simp [bindParams]
  | p :: ps, a :: as, e => by
    have ih := bindParams_skeleton ps as (if p.byRef then envDeclare e p.name a else envDeclare e p.name a)
    simp only [bindParams]
    rcases e with ⟨st, c, i, o⟩
    rcases hb : p.byRef with _ | _ <;>
      simp [hb] at ih ⊢ <;>
        simp [envDeclare] at ih ⊢ <;>
          exact ih

/-- The BYREF flag has no effect on parameter binding: the environment
built is the one built with every flag cleared. -/
theorem bindParams_byref_irrelevant : ∀ (ps : List Param) (args : List Obj) (e : Env),
    bindParams e ps args = bindParams e (ps.map fun p => ⟨p.name, false⟩) args
  | [], args, e => by simp [bindParams]
  | _ :: _, [], e => by simp [bindParams]
  | p :: ps, a :: as, e => by
    simp only [List.map, bindParams, ite_self]
    exact bindParams_byref_irrelevant ps as (envDeclare e p.name a)

/-- A name already present in the scope's store stays present through
the parameter fold. -/
theorem bindParams_presence : ∀ (ps : List Param) (args : List Obj) (e : Env) (k : String),
    (lookupA k e.store).isSome → (lookupA k (bindParams e ps args).store).isSome
  | [], args, e, k, hk => by simpa [bindParams] using hk
  | _ :: _, [], e, k, hk => by simpa [bindParams] using hk
  | p :: ps, a :: as, e, k, hk => by
    simp only [bindParams, ite_self]
    refine bindParams_presence ps as (envDeclare e p.name a) k ?_
    rcases e with ⟨st, c, i, o⟩
    simpa [envDeclare, Env.store] using lookupA_insertA_presence k p.name a st hk

/-- Every parameter whose position has an argument ends up bound in the
scope the fold builds. -/
theorem bindParams_binds : ∀ (ps : List Param) (args : List Obj) (e : Env) (p : Param),
    p ∈ ps.take args.length →
    (lookupA p.name (bindParams e ps args).store).isSome
  | [], args, e, p, hp => by simp at hp
  | _ :: _, [], e, p, hp => by simp at hp
  | p0 :: ps, a :: as, e, p, hp => by
    simp only [List.length, List.take, List.mem_cons] at hp
    simp only [bindParams, ite_self]
    rcases hp with h | h
    · subst h
      refine bindParams_presence ps as (envDeclare e p.name a) p.name ?_
      rcases e with ⟨st, c, i, o⟩
      simp [envDeclare, Env.store, lookupA_insertA_self]
    · exact bindParams_binds ps as (envDeclare e p0.name a) p h

/-! ## C8: BYREF parameters bound exactly like BYVAL, no write-back -/

/-- **C8.**  (1) `extendFunctionEnv` produces the same environment
whether or not any parameter carries the BYREF flag — BYREF arguments
are bound by value, exactly like BYVAL.  (2) The callee scope starts
with no constants, no active instance, and the callee's closure as its
parent.  (3) Every parameter whose position has an argument is bound in
the callee scope's own store.  (4) `SetInPlace` on a name owned by the
current (callee) store mutates only that store: the parent chain —
where every caller variable lives — and the heap are returned exactly
as they were, so an assignment to a BYREF parameter inside the body has
no write-back effect and the caller's variable keeps its value. -/
theorem claim8_byref_bound_as_byval_no_writeback :
    (∀ (fnEnv : Env) (args : List Obj) (ps : List Param),
      extendFunctionEnv fnEnv args ps
        = extendFunctionEnv fnEnv args (ps.map fun p => ⟨p.name, false⟩)) ∧
    (∀ (fnEnv : Env) (args : List Obj) (ps : List Param),
      (extendFunctionEnv fnEnv args ps).consts = [] ∧
      (extendFunctionEnv fnEnv args ps).inst = none ∧
      (extendFunctionEnv fnEnv args ps).outer = some fnEnv) ∧
    (∀ (fnEnv : Env) (args : List Obj) (ps : List Param) (p : Param),
      p ∈ ps.take args.length →
      (lookupA p.name (extendFunctionEnv fnEnv args ps).store).isSome) ∧
    (∀ (h : Heap) (st : List (String × Obj)) (c : List String) (i : Option Nat)
       (o : Option Env) (name : String) (v u : Obj),
      lookupA name st = some u → constMem name c = false →
      envSetInPlace h (.mk st c i o) name v = (.mk (insertA name v st) c i o, h, v)) := by
  refine ⟨?_, ?_, ?_, ?_⟩
  · intro fnEnv args ps
    exact bindParams_byref_irrelevant ps args (childEnv fnEnv)
  · intro fnEnv args ps
    have hsk := bindParams_skeleton ps args (childEnv fnEnv)
    simpa [extendFunctionEnv, childEnv, Env.consts, Env.inst, Env.outer] using hsk
  · intro fnEnv args ps p hp
    exact bindParams_binds ps args (childEnv fnEnv) p hp
  · intro h st c i o name v u hu hc
    exact setInPlace_local h st c i o name v u hu hc

/-- Witness for C8: a one-parameter procedure signature with BYREF set,
called with one argument; the membership and store hypotheses are
discharged at concrete values, and the in-place write leaves the parent
scope (holding the caller's `x`) untouched. -/
theorem claim8_witness :
    extendFunctionEnv (.mk [("x", .intV 1)] [] none none) [.intV 1] [⟨"p", true⟩]
      = extendFunctionEnv (.mk [("x", .intV 1)] [] none none) [.intV 1]
          (([⟨"p", true⟩] : List Param).map fun p => ⟨p.name, false⟩)
    ∧ (lookupA "p"
        (extendFunctionEnv (.mk [("x", .intV 1)] [] none none) [.intV 1] [⟨"p", true⟩]).store).isSome
    ∧ envSetInPlace [] (.mk [("p", .intV 1)] [] none (some (.mk [("x", .intV 1)] [] none none)))
        "p" (.intV 2)
      = (.mk (insertA "p" (.intV 2) [("p", .intV 1)]) [] none
           (some (.mk [("x", .intV 1)] [] none none)), [], .intV 2) :=
  ⟨claim8_byref_bound_as_byval_no_writeback.1 (.mk [("x", .intV 1)] [] none none)
     [.intV 1] [⟨"p", true⟩],
   claim8_byref_bound_as_byval_no_writeback.2.2.1 (.mk [("x", .intV 1)] [] none none)
     [.intV 1] [⟨"p", true⟩] ⟨"p", true⟩ (by decide),
   claim8_byref_bound_as_byval_no_writeback.2.2.2 [] [("p", .intV 1)] [] none
     (some (.mk [("x", .intV 1)] [] none none)) "p" (.intV 2) (.intV 1) rfl rfl⟩

/-! ## C5: Procedure calls and ReturnSignal unwrapping -/

/-- A user procedure whose body returns `5`. -/
def returningProc : Obj := .procV (.mk "Pr" [] [ .returnS (some (.intLit 5)) ] emptyEnv)

/-- **C5, counterexample.**  Calling a Procedure whose body ends in
`RETURN 5` yields the carried value `5` to the caller — the value is
unwrapped and propagated, not ignored: the call's result is `Integer 5`
and not the valueless `Null`. -/
theorem claim5_counterexample_procedure_value_propagates :
    applyFunction 10 returningProc [] emptyEnv emptyState = (.intV 5, emptyState)
    ∧ Obj.intV 5 ≠ Obj.nullV := by
  refine ⟨rfl, ?_⟩
  intro h
  exact Obj.noConfusion h

/-- **C5, amended.**  `applyFunction` treats Procedures exactly like
Functions: both run the body in a fresh scope extending the callee's
closure and return `unwrapReturnValue` of the outcome, so a trailing
ReturnSignal's carried value is propagated to the caller by Procedures
and Functions alike, and an Error (left intact by the unwrap) always
propagates. -/
theorem claim5_call_unwrap_amended :
    (∀ (m : Nat) (nm : String) (ps : List Param) (body : List Stmt) (fenv : Env)
       (args : List Obj) (callerEnv : Env) (st : IState),
      applyFunction (m+1) (.procV (.mk nm ps body fenv)) args callerEnv st
        = (unwrapReturnValue (evalStmtList m body (extendFunctionEnv fenv args ps) st).1,
           (evalStmtList m body (extendFunctionEnv fenv args ps) st).2.2)
      ∧ applyFunction (m+1) (.funcV (.mk nm ps body fenv)) args callerEnv st
        = applyFunction (m+1) (.procV (.mk nm ps body fenv)) args callerEnv st) ∧
    (∀ v : Obj, unwrapReturnValue (.retV v) = v) ∧
    (∀ msg : String, unwrapReturnValue (.errV msg) = .errV msg) := by
  refine ⟨?_, fun v => rfl, fun msg => rfl⟩
  intro m nm ps body fenv args callerEnv st
  constructor <;> rfl

/-- Witness for C5 (the amended theorem's first conjunct instantiated
at the concrete returning procedure). -/
theorem claim5_witness :
    applyFunction 10 (.procV (.mk "Pr" [] [ .returnS (some (.intLit 5)) ] emptyEnv)) [] emptyEnv
        emptyState
      = (unwrapReturnValue
           (evalStmtList 9 [ .returnS (some (.intLit 5)) ]
             (extendFunctionEnv emptyEnv [] []) emptyState).1,
         (evalStmtList 9 [ .returnS (some (.intLit 5)) ]
             (extendFunctionEnv emptyEnv [] []) emptyState).2.2) :=
  (claim5_call_unwrap_amended.1 9 "Pr" [] [ .returnS (some (.intLit 5)) ] emptyEnv [] emptyEnv
      emptyState).1

/-! ## Heap lemmas and get-after-set (for C9) -/

/-- `heapSetField` changes exactly the entry at `r`. -/
theorem heapLookup_setField : ∀ (h : Heap) (r r0 : Nat) (name : String) (v : Obj),
    heapLookup (heapSetField h r name v) r0
      = if r0 = r then Option.map (fun d => (⟨d.cls, insertA name v d.fields⟩ : InstData)) (heapLookup h r)
        else heapLookup h r0
  | [], r, r0, name, v => by
    simp only [heapSetField, heapLookup, lookupA, Option.map_none]
    split <;> rfl
  | (r1, d) :: rest, r, r0, name, v => by
    by_cases h1 : r1 = r
    · subst h1
      by_cases h0 : r0 = r1
      · subst h0
        simp [heapSetField, heapLookup, lookupA]
      · have h0s : ¬ r1 = r0 := fun hh => h0 hh.symm
        simp [heapSetField, heapLookup, lookupA, h0, h0s]
    · by_cases h0 : r0 = r
      · have h3 : ¬ r1 = r0 := fun hh => h1 (hh.trans h0)
        subst h0
        have ih := heapLookup_setField rest r0 r0 name v
        simp only [heapLookup] at ih
        simp [heapSetField, heapLookup, lookupA, h1, h3, ih]
      · by_cases h2 : r1 = r0
        · subst h2
          simp [heapSetField, heapLookup, lookupA, h1, h0]
        · have ih := heapLookup_setField rest r r0 name v
          simp only [heapLookup] at ih
          simp [heapSetField, heapLookup, lookupA, h1, h2, h0, ih]

/-- What `instOwner h i name = some r` means. -/
theorem instOwner_spec (h : Heap) (i : Option Nat) (name : String) (r : Nat)
    (hio : instOwner h i name = some r) :
    i = some r ∧ ∃ d, heapLookup h r = some d ∧ (lookupA name d.fields).isSome := by
  rcases i with _ | r0
  · simp [instOwner] at hio
  · rcases hd : heapLookup h r0 with _ | d
    · simp [instOwner, hd] at hio
    · rcases hf : (lookupA name d.fields).isSome with _ | _
      · simp [instOwner, hd, hf] at hio
      · simp [instOwner, hd, hf] at hio
        subst hio
        exact ⟨rfl, d, hd, hf⟩

/-- A negative `instOwner` test means the active-instance field read
also misses. -/
theorem instFieldGet_none_of_instOwner_none (h : Heap) (i : Option Nat) (name : String)
    (hio : instOwner h i name = none) : instFieldGet h i name = none := by
  rcases i with _ | r0
  · simp [instFieldGet]
  · rcases hd : heapLookup h r0 with _ | d
    · simp [instFieldGet, hd]
    · rcases hf : lookupA name d.fields with _ | u
      · simp [instFieldGet, hd, hf]
      · simp [instOwner, hd, hf] at hio

/-- `SetInPlace` either leaves the heap alone or overwrites one
already-present field of one instance. -/
theorem setInPlace_heap : ∀ (h : Heap) (env : Env) (name : String) (v : Obj),
    (envSetInPlace h env name v).2.1 = h ∨
    ∃ r d, heapLookup h r = some d ∧ (lookupA name d.fields).isSome ∧
      (envSetInPlace h env name v).2.1 = heapSetField h r name v
  | h, .mk st c i none, name, v => by
    rw [envSetInPlace.eq_2]
    cases hlk : lookupA name st with
    | some u => by_cases hc : constMem name c <;> simp [hc]
    | none =>
      cases hio : instOwner h i name with
      | some r =>
        rcases instOwner_spec h i name r hio with ⟨hi, d, hd, hf⟩
        exact Or.inr ⟨r, d, hd, hf, by simp⟩
      | none => simp
  | h, .mk st c i (some oe), name, v => by
    rw [envSetInPlace.eq_1]
    cases hlk : lookupA name st with
    | some u => by_cases hc : constMem name c <;> simp [hc]
    | none =>
      cases hio : instOwner h i name with
      | some r =>
        rcases instOwner_spec h i name r hio with ⟨hi, d, hd, hf⟩
        exact Or.inr ⟨r, d, hd, hf, by simp⟩
      | none =>
        simp only []
        exact setInPlace_heap h oe name v

/-- A name the active instance does not own stays un-owned through any
`SetInPlace` of that same name (the write only ever replaces a field
that already exists). -/
theorem instOwner_after_set (h : Heap) (env2 : Env) (j : Option Nat) (name : String) (v : Obj)
    (hjo : instOwner h j name = none) :
    instOwner (envSetInPlace h env2 name v).2.1 j name = none := by
  rcases setInPlace_heap h env2 name v with hsame | ⟨r, d, hd, hf, hset⟩
  · rw [hsame]; exact hjo
  · rw [hset]
    rcases j with _ | r0
    · simp [instOwner]
    · by_cases h0 : r0 = r
      · subst h0
        rw [instOwner, hd] at hjo
        simp [hf] at hjo
      · simp [instOwner, heapLookup_setField, h0]
        rw [instOwner] at hjo
        exact hjo

/-- After a non-constant `SetInPlace`, `Get` on the same name (run
against the updated chain and heap) sees exactly the written value:
the write lands where the read looks first. -/
theorem setInPlace_get : ∀ (h : Heap) (env : Env) (name : String) (v : Obj),
    resolvesToConst h env name = false →
    envGet (envSetInPlace h env name v).2.1 (envSetInPlace h env name v).1 name = some v
  | h, .mk st c i none, name, v, hyp => by
    rw [resolvesToConst.eq_2] at hyp
    rw [envSetInPlace.eq_2]
    cases hlk : lookupA name st with
    | some u =>
      rw [hlk] at hyp
      simp only [] at hyp
      simp only [hyp, Bool.false_eq_true, if_false]
      rw [envGet.eq_2]
      simp [lookupA_insertA_self]
    | none =>
      cases hio : instOwner h i name with
      | some r =>
        rcases instOwner_spec h i name r hio with ⟨hi, d, hd, hf⟩
        subst hi
        simp only []
        rw [envGet.eq_2, hlk]
        simp [instFieldGet, heapLookup_setField, hd, lookupA_insertA_self]
      | none =>
        simp only []
        rw [envGet.eq_2]
        simp [lookupA_insertA_self]
  | h, .mk st c i (some oe), name, v, hyp => by
    rw [resolvesToConst.eq_1] at hyp
    rw [envSetInPlace.eq_1]
    cases hlk : lookupA name st with
    | some u =>
      rw [hlk] at hyp
      simp only [] at hyp
      simp only [hyp, Bool.false_eq_true, if_false]
      rw [envGet.eq_1]
      simp [lookupA_insertA_self]
    | none =>
      cases hio : instOwner h i name with
      | some r =>
        rcases instOwner_spec h i name r hio with ⟨hi, d, hd, hf⟩
        subst hi
        simp only []
        rw [envGet.eq_1, hlk]
        simp [instFieldGet, heapLookup_setField, hd, lookupA_insertA_self]
      | none =>
        rw [hlk] at hyp; rw [hio] at hyp
        have ih := setInPlace_get h oe name v hyp
        have hoa := instOwner_after_set h oe i name v hio
        have hfg := instFieldGet_none_of_instOwner_none _ i name hoa
        simp only []
        rw [envGet.eq_1, hlk, hfg]
        exact ih

/-- The head of a `dropWhile` result never satisfies the dropped
predicate. -/
theorem head_dropWhile_not {α : Type} (p : α → Bool) :
    ∀ (l : List α) (c : α), (l.dropWhile p).head? = some c → p c = false
  | [], c, hl => by simp [List.dropWhile] at hl
  | a :: rest, c, hl => by
    by_cases hp : p a
    · rw [List.dropWhile_cons_of_pos hp] at hl
      exact head_dropWhile_not p rest c hl
    · rw [List.dropWhile_cons_of_neg hp] at hl
      simp at hl
      subst hl
      simpa using hp

/-- The CR/LF trim leaves no trailing carriage return or newline. -/
theorem trimCRLF_no_trailing (cs : List Char) (c : Char)
    (hl : (trimCRLF cs).getLast? = some c) : c ≠ '\r' ∧ c ≠ '\n' := by
  unfold trimCRLF at hl
  rw [List.getLast?_reverse] at hl
  have := head_dropWhile_not (fun c => decide (c = '\r' ∨ c = '\n')) cs.reverse c hl
  simp at this
  exact this

/-! ## C9: INPUT stores the raw line as a String -/

/-- **C9, counterexample.**  An INPUT statement whose target name was
declared via CONSTANT does not assign at all: the ConstantViolation
from `SetInPlace` is discarded, the statement still evaluates to Null,
and the variable keeps its old Integer value instead of receiving the
line as a String. -/
theorem claim9_counterexample_input_constant_target :
    evalStmt 5 (.inputS (.ident "x")) (envDeclareConstant emptyEnv "x" (.intV 1))
        ⟨[], 0, [], "John\n".data⟩
      = (.nullV, envDeclareConstant emptyEnv "x" (.intV 1), ⟨[], 0, [], []⟩)
    ∧ envGet [] (envDeclareConstant emptyEnv "x" (.intV 1)) "x" = some (.intV 1) :=
  ⟨rfl, rfl⟩

/-- **C9, amended.**  For every INPUT statement reading a line into an
identifier target that does not resolve to a CONSTANT, the target is
assigned the String consisting of the line with trailing CR/LF
stripped, regardless of the target's previously declared type (the
prior binding `dv` is arbitrary — an Integer or Real binding is simply
overwritten); no numeric conversion happens, no type error is raised,
the statement itself evaluates to Null, and the stored string never
ends in a carriage return or newline. -/
theorem claim9_input_assigns_string_amended :
    ∀ (m : Nat) (x : String) (env : Env) (st : IState),
      resolvesToConst st.insts env x = false →
      evalStmt (m+1) (.inputS (.ident x)) env st
          = (.nullV, (envSetInPlace st.insts env x (.strV (readInputLine st.input).1)).1,
             ⟨(envSetInPlace st.insts env x (.strV (readInputLine st.input).1)).2.1,
              st.nextRef, st.output, (readInputLine st.input).2⟩)
      ∧ envGet (envSetInPlace st.insts env x (.strV (readInputLine st.input).1)).2.1
          (envSetInPlace st.insts env x (.strV (readInputLine st.input).1)).1 x
          = some (.strV (readInputLine st.input).1)
      ∧ (∀ c, ((readInputLine st.input).1).data.getLast? = some c → c ≠ '\r' ∧ c ≠ '\n') := by
  intro m x env st hc
  refine ⟨rfl, setInPlace_get st.insts env x (.strV (readInputLine st.input).1) hc, ?_⟩
  intro c hcl
  exact trimCRLF_no_trailing (takeLine st.input).1 c hcl

/-- Witness for C9: the target `x` is declared INTEGER (bound to
`Integer 0`) and still receives the String `"John"` from the input line
`"John\r\n"`, with no error. -/
theorem claim9_witness :
    evalStmt 5 (.inputS (.ident "x")) (envDeclare emptyEnv "x" (.intV 0))
        ⟨[], 0, [], "John\r\n".data⟩
      = (.nullV,
         (envSetInPlace [] (envDeclare emptyEnv "x" (.intV 0)) "x"
            (.strV (readInputLine "John\r\n".data).1)).1,
         ⟨(envSetInPlace [] (envDeclare emptyEnv "x" (.intV 0)) "x"
            (.strV (readInputLine "John\r\n".data).1)).2.1,
          0, [], (readInputLine "John\r\n".data).2⟩)
    ∧ envGet [] (envSetInPlace [] (envDeclare emptyEnv "x" (.intV 0)) "x"
          (.strV (readInputLine "John\r\n".data).1)).1 "x"
        = some (.strV "John") :=
  ⟨(claim9_input_assigns_string_amended 4 "x" (envDeclare emptyEnv "x" (.intV 0))
      ⟨[], 0, [], "John\r\n".data⟩ rfl).1,
   by rfl⟩

/-! ## C10: FOR step defaulting and start/end type errors -/

/-- A non-Integer start value fails the bounds check with the start
Error. -/
theorem forCheck_start_err (s0 e0 : Obj) (cont : Int → Int → Obj × Env × IState)
    (env : Env) (st : IState) (hni : ∀ a : Int, s0 ≠ .intV a) :
    forCheck s0 e0 cont env st = (.errV "FOR loop start must be an integer", env, st) := by
  cases s0 with
  | intV a => exact absurd rfl (hni a)
  | _ => rfl

/-- With an Integer start, a non-Integer end value fails the bounds
check with the end Error. -/
theorem forCheck_end_err (a : Int) (e0 : Obj) (cont : Int → Int → Obj × Env × IState)
    (env : Env) (st : IState) (hni : ∀ b : Int, e0 ≠ .intV b) :
    forCheck (.intV a) e0 cont env st = (.errV "FOR loop end must be an integer", env, st) := by
  cases e0 with
  | intV b => exact absurd rfl (hni b)
  | _ => rfl

/-- **C10.**  (1) When the optional STEP expression evaluates without
error to anything that is not an Integer, no error is produced: the FOR
statement proceeds into the bounds check and loop with the default step
`1`, exactly as a FOR with no STEP clause does.  (2) A FOR whose start
value evaluates (without error) to a non-Integer produces the
"FOR loop start must be an integer" Error with the enclosing scope
untouched and the state exactly as it stood after evaluating start and
end — no iteration runs.  (3) Likewise a non-Integer end value produces
the "FOR loop end must be an integer" Error before any iteration. -/
theorem claim10_for_step_default_and_bound_errors :
    (∀ (m : Nat) (v : String) (sE eE se : Expr) (body : List Stmt) (env : Env)
       (st st1 st2 st3 : IState) (s0 e0 sv : Obj),
      evalExpr m sE env st = (s0, st1) → isError s0 = false →
      evalExpr m eE env st1 = (e0, st2) → isError e0 = false →
      evalExpr m se env st2 = (sv, st3) → isError sv = false →
      (∀ k : Int, sv ≠ .intV k) →
      evalStmt (m+1) (.forS v sE eE (some se) body) env st
        = forCheck s0 e0 (fun a b => forRun m v a b 1 body env st3) env st3) ∧
    (∀ (m : Nat) (v : String) (sE eE : Expr) (body : List Stmt) (env : Env)
       (st st1 st2 : IState) (s0 e0 : Obj),
      evalExpr m sE env st = (s0, st1) → isError s0 = false →
      evalExpr m eE env st1 = (e0, st2) → isError e0 = false →
      (∀ a : Int, s0 ≠ .intV a) →
      evalStmt (m+1) (.forS v sE eE none body) env st
        = (.errV "FOR loop start must be an integer", env, st2)) ∧
    (∀ (m : Nat) (v : String) (sE eE : Expr) (body : List Stmt) (env : Env)
       (st st1 st2 : IState) (a : Int) (e0 : Obj),
      evalExpr m sE env st = (.intV a, st1) →
      evalExpr m eE env st1 = (e0, st2) → isError e0 = false →
      (∀ b : Int, e0 ≠ .intV b) →
      evalStmt (m+1) (.forS v sE eE none body) env st
        = (.errV "FOR loop end must be an integer", env, st2)) := by
  refine ⟨?_, ?_, ?_⟩
  · intro m v sE eE se body env st st1 st2 st3 s0 e0 sv h1 h1e h2 h2e h3 h3e hni
    simp only [evalStmt, h1, h1e, h2, h2e, h3, h3e, Bool.false_eq_true, if_false]
  · intro m v sE eE body env st st1 st2 s0 e0 h1 h1e h2 h2e hni
    simp only [evalStmt, h1, h1e, h2, h2e, Bool.false_eq_true, if_false]
    exact forCheck_start_err s0 e0 _ env st2 hni
  · intro m v sE eE body env st st1 st2 a e0 h1 h2 h2e hni
    simp only [evalStmt, h1, h2, h2e, Bool.false_eq_true, if_false]
    rw [show isError (Obj.intV a) = false from rfl]
    simp only [Bool.false_eq_true, if_false]
    exact forCheck_end_err a e0 _ env st2 hni

/-- Witness for C10: a FOR with a String step value proceeds with step
1 (conjunct 1 at concrete inputs), and a FOR whose start is a Boolean
aborts with the start Error (conjunct 2 at concrete inputs). -/
theorem claim10_witness :
    evalStmt 4 (.forS "i" (.intLit 1) (.intLit 2) (some (.strLit "s")) []) emptyEnv emptyState
      = forCheck (.intV 1) (.intV 2) (fun a b => forRun 3 "i" a b 1 [] emptyEnv emptyState)
          emptyEnv emptyState
    ∧ evalStmt 4 (.forS "i" (.boolLit true) (.intLit 2) none []) emptyEnv emptyState
      = (.errV "FOR loop start must be an integer", emptyEnv, emptyState) :=
  ⟨claim10_for_step_default_and_bound_errors.1 3 "i" (.intLit 1) (.intLit 2) (.strLit "s") []
      emptyEnv emptyState emptyState emptyState emptyState (.intV 1) (.intV 2) (.strV "s")
      rfl rfl rfl rfl rfl rfl (fun _ h => Obj.noConfusion h),
   claim10_for_step_default_and_bound_errors.2.1 3 "i" (.boolLit true) (.intLit 2) []
      emptyEnv emptyState emptyState emptyState (.boolV true) (.intV 2)
      rfl rfl rfl rfl (fun _ h => Obj.noConfusion h)⟩

/-! ## C3: the constructor lookup in New -/

/-- Looking up a different key sees through an insert. -/
theorem lookupA_insertA_ne {α : Type} (k k' : String) (hne : k ≠ k') (v : α) :
    ∀ l : List (String × α), lookupA k (insertA k' v l) = lookupA k l
  | [] => by
    have h1 : ¬ k' = k := fun hh => hne hh.symm
    simp [insertA, lookupA, h1]
  | (k0, v0) :: rest => by
    have h1 : ¬ k' = k := fun hh => hne hh.symm
    by_cases h0 : k0 = k'
    · subst h0
      simp [insertA, lookupA, h1]
    · simp [insertA, lookupA, h0, lookupA_insertA_ne k k' hne v rest]

/-- Null-populating fields keeps every stored value Null. -/
theorem addNullFields_all : ∀ (fs : List String) (acc : List (String × Obj)) (n : String) (v : Obj),
    (∀ n0 v0, lookupA n0 acc = some v0 → v0 = .nullV) →
    lookupA n (addNullFields acc fs) = some v → v = .nullV
  | [], acc, n, v, hacc, hl => hacc n v hl
  | f :: fs, acc, n, v, hacc, hl => by
    refine addNullFields_all fs (insertA f .nullV acc) n v ?_ hl
    intro n0 v0 h0
    by_cases hf : n0 = f
    · subst hf
      rw [lookupA_insertA_self] at h0
      exact (Option.some.injEq _ _).mp h0.symm
    · rw [lookupA_insertA_ne n0 f hf .nullV acc] at h0
      exact hacc n0 v0 h0

/-- Every field `initializeInstanceFields` populates is Null. -/
theorem initFields_all : ∀ (cls : ClassV) (n : String) (v : Obj),
    lookupA n (initFields cls) = some v → v = .nullV
  | .mk nm none ms fs, n, v, hl => by
    refine addNullFields_all fs [] n v ?_ ?_
    · intro n0 v0 h0
      simp [lookupA] at h0
    · simpa [initFields] using hl
  | .mk nm (some p) ms fs, n, v, hl => by
    refine addNullFields_all fs (initFields p) n v ?_ ?_
    · intro n0 v0 h0
      exact initFields_all p n0 v0 h0
    · simpa [initFields] using hl

/-- The parent class: one declared field `x`, and a constructor `NEW`
that sets `x` to `7`. -/
def parentWithCtor : ClassV :=
  .mk "P" none [("NEW", .procV (.mk "NEW" [] [ .assignS (.ident "x") (.intLit 7) ] emptyEnv))] ["x"]

/-- The child class: extends the parent, declares nothing of its own —
in particular it has no own `NEW`. -/
def childNoCtor : ClassV := .mk "C" (some parentWithCtor) [] []

/-- A scope binding both class names. -/
def classScope : Env :=
  envDeclare (envDeclare emptyEnv "P" (.classV parentWithCtor)) "C" (.classV childNoCtor)

/-- **C3, counterexample.**  The class `C` inherits `NEW` from its
parent (`lookupMethod` finds it in the ancestor chain), yet
`New C()` does NOT invoke it: the constructor would set the field `x`
to `7`, but the created instance's `x` is still Null, because
`evalNewExpression` consults only the class's OWN method map.  The same
constructor invoked through `New P()` does set `x` to `7`. -/
theorem claim3_counterexample_inherited_constructor_not_invoked :
    (lookupMethod childNoCtor "NEW").isSome = true
    ∧ instFieldGet (evalExpr 20 (.newE "C" []) classScope emptyState).2.insts (some 0) "x"
        = some .nullV
    ∧ instFieldGet (evalExpr 20 (.newE "P" []) classScope emptyState).2.insts (some 0) "x"
        = some (.intV 7) :=
  ⟨rfl, rfl, rfl⟩

/-- **C3, amended.**  After the instance's declared fields are
pre-populated Null walking the parent class first and then the class
itself (conjunct 2: every initialized field is Null), the constructor
is invoked only when a method named `NEW` sits in the class's OWN
method map: with no own `NEW`, `New` returns the fresh instance
directly — the argument expressions are not even evaluated — even when
an ancestor provides `NEW` (conjunct 1); with an own Procedure `NEW`,
the constructor body runs in a method environment over the fresh
instance and its return value is discarded (conjunct 3); an own `NEW`
that is not a Procedure is skipped after argument evaluation
(conjunct 4). -/
theorem claim3_constructor_own_map_only_amended :
    (∀ (m : Nat) (cname : String) (args : List Expr) (env : Env) (st : IState) (cls : ClassV),
      envGet st.insts env cname = some (.classV cls) →
      lookupA "NEW" cls.methods = none →
      evalExpr (m+1) (.newE cname args) env st
        = (.instV st.nextRef,
           ⟨st.insts ++ [(st.nextRef, ⟨cls, initFields cls⟩)], st.nextRef + 1,
            st.output, st.input⟩)) ∧
    (∀ (cls : ClassV) (n : String) (v : Obj),
      lookupA n (initFields cls) = some v → v = .nullV) ∧
    (∀ (m : Nat) (cname : String) (args : List Expr) (env : Env) (st : IState) (cls : ClassV)
       (nm : String) (ps : List Param) (body : List Stmt) (fenv : Env) (avs : List Obj)
       (st2 : IState),
      envGet st.insts env cname = some (.classV cls) →
      lookupA "NEW" cls.methods = some (.procV (.mk nm ps body fenv)) →
      evalExprList m args env
          ⟨st.insts ++ [(st.nextRef, ⟨cls, initFields cls⟩)], st.nextRef + 1,
           st.output, st.input⟩ = (avs, st2) →
      checkArgsErr avs = none →
      evalExpr (m+1) (.newE cname args) env st
        = (.instV st.nextRef,
           (evalStmtList m body
             (bindMethodParams (createMethodEnv st.nextRef ⟨cls, initFields cls⟩ env) ps avs)
             st2).2.2)) ∧
    (∀ (m : Nat) (cname : String) (args : List Expr) (env : Env) (st : IState) (cls : ClassV)
       (f : FuncV) (avs : List Obj) (st2 : IState),
      envGet st.insts env cname = some (.classV cls) →
      lookupA "NEW" cls.methods = some (.funcV f) →
      evalExprList m args env
          ⟨st.insts ++ [(st.nextRef, ⟨cls, initFields cls⟩)], st.nextRef + 1,
           st.output, st.input⟩ = (avs, st2) →
      checkArgsErr avs = none →
      evalExpr (m+1) (.newE cname args) env st = (.instV st.nextRef, st2)) := by
  refine ⟨?_, initFields_all, ?_, ?_⟩
  · intro m cname args env st cls hc hnew
    simp only [evalExpr, hc, hnew]
  · intro m cname args env st cls nm ps body fenv avs st2 hc hnew hargs hok
    simp only [evalExpr, hc, hnew, hargs, hok]
  · intro m cname args env st cls f avs st2 hc hnew hargs hok
    simp only [evalExpr, hc, hnew, hargs, hok]

/-- Witness for C3: conjunct 1 applied at the concrete child class
whose `NEW` lives only on the parent, hypotheses discharged by
computation. -/
theorem claim3_witness :
    evalExpr 20 (.newE "C" []) classScope emptyState
      = (.instV 0, ⟨[(0, ⟨childNoCtor, initFields childNoCtor⟩)], 1, [], []⟩) :=
  claim3_constructor_own_map_only_amended.1 19 "C" [] classScope emptyState childNoCtor rfl rfl

/-! ## Method-environment lemmas (for C2) -/

/-- `Declare` only touches the store. -/
theorem envDeclare_parts (e : Env) (n : String) (v : Obj) :
    (envDeclare e n v).store = insertA n v e.store ∧
    (envDeclare e n v).consts = e.consts ∧
    (envDeclare e n v).inst = e.inst ∧
    (envDeclare e n v).outer = e.outer := by
  rcases e with ⟨st, c, i, o⟩
  exact ⟨rfl, rfl, rfl, rfl⟩

/-- The own-method fold only touches the store. -/
theorem declareOwnMethods_parts : ∀ (ms : List (String × Obj)) (e : Env) (ref : Nat),
    (declareOwnMethods e ref ms).consts = e.consts ∧
    (declareOwnMethods e ref ms).inst = e.inst ∧
    (declareOwnMethods e ref ms).outer = e.outer
  | [], e, ref => ⟨rfl, rfl, rfl⟩
  | (n, mv) :: rest, e, ref => by
    have ih := declareOwnMethods_parts rest (envDeclare e n (.boundV ref mv)) ref
    have hd := envDeclare_parts e n (.boundV ref mv)
    simp only [declareOwnMethods]
    exact ⟨ih.1.trans hd.2.1, ih.2.1.trans hd.2.2.1, ih.2.2.trans hd.2.2.2⟩

/-- The conditional inherited-method fold only touches the store. -/
theorem declareIfAbsent_parts : ∀ (ms : List (String × Obj)) (e : Env) (ref : Nat),
    (declareIfAbsent e ref ms).consts = e.consts ∧
    (declareIfAbsent e ref ms).inst = e.inst ∧
    (declareIfAbsent e ref ms).outer = e.outer
  | [], e, ref => ⟨rfl, rfl, rfl⟩
  | (n, mv) :: rest, e, ref => by
    by_cases hp : (lookupA n e.store).isSome
    · have ih := declareIfAbsent_parts rest e ref
      simp only [declareIfAbsent, hp, if_true]
      exact ih
    · have ih := declareIfAbsent_parts rest (envDeclare e n (.boundV ref mv)) ref
      have hd := envDeclare_parts e n (.boundV ref mv)
      simp only [declareIfAbsent, hp, if_false, Bool.false_eq_true]
      exact ⟨ih.1.trans hd.2.1, ih.2.1.trans hd.2.2.1, ih.2.2.trans hd.2.2.2⟩

/-- The ancestor-chain fold only touches the store. -/
theorem declareInheritedFrom_parts : ∀ (p : ClassV) (e : Env) (ref : Nat),
    (declareInheritedFrom e ref p).consts = e.consts ∧
    (declareInheritedFrom e ref p).inst = e.inst ∧
    (declareInheritedFrom e ref p).outer = e.outer
  | .mk nm none ms fs, e, ref => by
    have h1 := declareIfAbsent_parts ms e ref
    simp only [declareInheritedFrom]
    exact h1
  | .mk nm (some p2) ms fs, e, ref => by
    have h1 := declareIfAbsent_parts ms e ref
    have ih := declareInheritedFrom_parts p2 (declareIfAbsent e ref ms) ref
    simp only [declareInheritedFrom]
    exact ⟨ih.1.trans h1.1, ih.2.1.trans h1.2.1, ih.2.2.trans h1.2.2⟩

/-- Like `declareInheritedFrom_parts`, for the optional-parent wrapper. -/
theorem declareInherited_parts (po : Option ClassV) (e : Env) (ref : Nat) :
    (declareInherited e ref po).consts = e.consts ∧
    (declareInherited e ref po).inst = e.inst ∧
    (declareInherited e ref po).outer = e.outer := by
  cases po with
  | none => exact ⟨rfl, rfl, rfl⟩
  | some p => exact declareInheritedFrom_parts p e ref

/-- A name outside a method list's keys is untouched by the own-method
fold. -/
theorem declareOwnMethods_preserve : ∀ (ms : List (String × Obj)) (e : Env) (ref : Nat)
    (nm : String), nm ∉ ms.map Prod.fst →
    lookupA nm (declareOwnMethods e ref ms).store = lookupA nm e.store
  | [], e, ref, nm, hnm => rfl
  | (n, mv) :: rest, e, ref, nm, hnm => by
    simp only [List.map, List.mem_cons, not_or] at hnm
    have ih := declareOwnMethods_preserve rest (envDeclare e n (.boundV ref mv)) ref nm hnm.2
    simp only [declareOwnMethods]
    rw [ih, (envDeclare_parts e n (.boundV ref mv)).1]
    exact lookupA_insertA_ne nm n hnm.1 (Obj.boundV ref mv) e.store

/-- A name already bound in the scope is untouched by the conditional
inherited-method fold (child bindings take precedence). -/
theorem declareIfAbsent_preserve : ∀ (ms : List (String × Obj)) (e : Env) (ref : Nat)
    (nm : String) (w : Obj), lookupA nm e.store = some w →
    lookupA nm (declareIfAbsent e ref ms).store = some w
  | [], e, ref, nm, w, hw => hw
  | (n, mv) :: rest, e, ref, nm, w, hw => by
    by_cases hp : (lookupA n e.store).isSome
    · simp only [declareIfAbsent, hp, if_true]
      exact declareIfAbsent_preserve rest e ref nm w hw
    · simp only [declareIfAbsent, hp, if_false, Bool.false_eq_true]
      refine declareIfAbsent_preserve rest (envDeclare e n (.boundV ref mv)) ref nm w ?_
      have hne : nm ≠ n := by
        intro hh
        subst hh
        rw [hw] at hp
        simp at hp
      rw [(envDeclare_parts e n (.boundV ref mv)).1, lookupA_insertA_ne nm n hne]
      exact hw

/-- A name already bound in the scope survives the whole ancestor
walk. -/
theorem declareInheritedFrom_preserve : ∀ (p : ClassV) (e : Env) (ref : Nat)
    (nm : String) (w : Obj), lookupA nm e.store = some w →
    lookupA nm (declareInheritedFrom e ref p).store = some w
  | .mk cn none ms fs, e, ref, nm, w, hw => by
    simp only [declareInheritedFrom]
    exact declareIfAbsent_preserve ms e ref nm w hw
  | .mk cn (some p2) ms fs, e, ref, nm, w, hw => by
    simp only [declareInheritedFrom]
    exact declareInheritedFrom_preserve p2 (declareIfAbsent e ref ms) ref nm w
      (declareIfAbsent_preserve ms e ref nm w hw)

/-- With unique keys, every own method ends up bound to the receiver as
a BoundMethod by the own-method fold. -/
theorem declareOwnMethods_binds : ∀ (ms : List (String × Obj)) (e : Env) (ref : Nat)
    (nm : String) (mv : Obj), (ms.map Prod.fst).Nodup →
    lookupA nm ms = some mv →
    lookupA nm (declareOwnMethods e ref ms).store = some (.boundV ref mv)
  | [], e, ref, nm, mv, hnd, hl => by simp [lookupA] at hl
  | (n, mv0) :: rest, e, ref, nm, mv, hnd, hl => by
    simp only [List.map, List.nodup_cons] at hnd
    by_cases hn : n = nm
    · subst hn
      have hl2 : mv0 = mv := by simpa [lookupA] using hl
      subst hl2
      simp only [declareOwnMethods]
      rw [declareOwnMethods_preserve rest (envDeclare e n (.boundV ref mv0)) ref n hnd.1,
        (envDeclare_parts e n (.boundV ref mv0)).1, lookupA_insertA_self]
    · simp only [lookupA, if_neg hn] at hl
      simp only [declareOwnMethods]
      exact declareOwnMethods_binds rest (envDeclare e n (.boundV ref mv0)) ref nm mv hnd.2 hl

/-- A name absent from both the scope and a method list stays absent
through the conditional fold. -/
theorem declareIfAbsent_absent : ∀ (ms : List (String × Obj)) (e : Env) (ref : Nat)
    (nm : String), lookupA nm e.store = none → lookupA nm ms = none →
    lookupA nm (declareIfAbsent e ref ms).store = none
  | [], e, ref, nm, he, hm => he
  | (n, mv) :: rest, e, ref, nm, he, hm => by
    have hne : ¬ n = nm := by
      intro hh
      rw [lookupA, if_pos hh] at hm
      cases hm
    rw [lookupA, if_neg hne] at hm
    by_cases hp : (lookupA n e.store).isSome
    · simp only [declareIfAbsent, hp, if_true]
      exact declareIfAbsent_absent rest e ref nm he hm
    · simp only [declareIfAbsent, hp, if_false, Bool.false_eq_true]
      refine declareIfAbsent_absent rest (envDeclare e n (.boundV ref mv)) ref nm ?_ hm
      rw [(envDeclare_parts e n (.boundV ref mv)).1,
        lookupA_insertA_ne nm n (fun hh => hne hh.symm)]
      exact he

/-- A name absent from the scope but present in a method list is bound
by the conditional fold (its first occurrence wins; later duplicates
are skipped because the name is then present). -/
theorem declareIfAbsent_binds : ∀ (ms : List (String × Obj)) (e : Env) (ref : Nat)
    (nm : String) (mv : Obj), lookupA nm e.store = none → lookupA nm ms = some mv →
    lookupA nm (declareIfAbsent e ref ms).store = some (.boundV ref mv)
  | [], e, ref, nm, mv, he, hm => by simp [lookupA] at hm
  | (n, mv0) :: rest, e, ref, nm, mv, he, hm => by
    by_cases hn : n = nm
    · subst hn
      rw [lookupA, if_pos rfl, Option.some.injEq] at hm
      subst hm
      have hp : ¬ (lookupA n e.store).isSome = true := by rw [he]; simp
      simp only [declareIfAbsent, hp, if_false, Bool.false_eq_true]
      refine declareIfAbsent_preserve rest (envDeclare e n (.boundV ref mv0)) ref n _ ?_
      rw [(envDeclare_parts e n (.boundV ref mv0)).1, lookupA_insertA_self]
    · rw [lookupA, if_neg hn] at hm
      by_cases hp : (lookupA n e.store).isSome
      · simp only [declareIfAbsent, hp, if_true]
        exact declareIfAbsent_binds rest e ref nm mv he hm
      · simp only [declareIfAbsent, hp, if_false, Bool.false_eq_true]
        refine declareIfAbsent_binds rest (envDeclare e n (.boundV ref mv0)) ref nm mv ?_ hm
        rw [(envDeclare_parts e n (.boundV ref mv0)).1,
          lookupA_insertA_ne nm n (fun hh => hn hh.symm)]
        exact he

/-- A name absent from the scope and resolved by `lookupMethod`
somewhere along an ancestor chain ends up bound to the FIRST ancestor's
implementation by the walk. -/
theorem declareInheritedFrom_binds : ∀ (p : ClassV) (e : Env) (ref : Nat)
    (nm : String) (mv : Obj), lookupA nm e.store = none → lookupMethod p nm = some mv →
    lookupA nm (declareInheritedFrom e ref p).store = some (.boundV ref mv)
  | .mk cn none ms fs, e, ref, nm, mv, he, hm => by
    rw [lookupMethod.eq_2] at hm
    cases hown : lookupA nm ms with
    | some mv0 =>
      rw [hown] at hm
      simp only [Option.some.injEq] at hm
      subst hm
      simp only [declareInheritedFrom]
      exact declareIfAbsent_binds ms e ref nm mv0 he hown
    | none =>
      rw [hown] at hm
      cases hm
  | .mk cn (some p2) ms fs, e, ref, nm, mv, he, hm => by
    rw [lookupMethod.eq_1] at hm
    cases hown : lookupA nm ms with
    | some mv0 =>
      rw [hown] at hm
      simp only [Option.some.injEq] at hm
      subst hm
      simp only [declareInheritedFrom]
      exact declareInheritedFrom_preserve p2 _ ref nm _
        (declareIfAbsent_binds ms e ref nm mv0 he hown)
    | none =>
      rw [hown] at hm
      simp only [declareInheritedFrom]
      exact declareInheritedFrom_binds p2 (declareIfAbsent e ref ms) ref nm mv
        (declareIfAbsent_absent ms e ref nm he hown) hm

/-- A `none` lookup means the key is absent. -/
theorem lookupA_none_not_mem {α : Type} (nm : String) :
    ∀ l : List (String × α), lookupA nm l = none → nm ∉ l.map Prod.fst
  | [], hl => by simp
  | (k, v) :: rest, hl => by
    by_cases hk : k = nm
    · rw [lookupA, if_pos hk] at hl
      cases hl
    · rw [lookupA, if_neg hk] at hl
      simp only [List.map, List.mem_cons, not_or]
      exact ⟨fun hh => hk hh.symm, lookupA_none_not_mem nm rest hl⟩

/-! ## C2: the method environment -/

/-- The closure scope of the class in the counterexample — a scope
recognisably different from the caller's. -/
def cexClassEnv : Env := .mk [("tag", .intV 1)] [] none none

/-- A class with one method whose captured closure is `cexClassEnv`. -/
def cexCls : ClassV := .mk "D" none [("M", .procV (.mk "M" [] [] cexClassEnv))] []

/-- An instance of that class. -/
def cexInst : InstData := ⟨cexCls, []⟩

/-- **C2, counterexample.**  The method environment built for a method
call is a child of the CALLER's environment, not of the declaring
class's closure: with the caller's scope empty and the class closure
holding `tag`, the built environment's parent is the caller's scope and
differs from the class closure captured in the method. -/
theorem claim2_counterexample_method_env_parent_is_caller :
    (createMethodEnv 0 cexInst emptyEnv).outer = some emptyEnv
    ∧ (createMethodEnv 0 cexInst emptyEnv).outer ≠ some cexClassEnv := by
  refine ⟨rfl, ?_⟩
  intro hcontra
  rw [show (createMethodEnv 0 cexInst emptyEnv).outer = some emptyEnv from rfl] at hcontra
  simp [emptyEnv, cexClassEnv] at hcontra

/-- **C2, amended.**  The method environment `createMethodEnv` builds
(both at construction time and at each re-invocation through
`applyBoundMethod`) is a fresh scope whose parent is the CALLER's
environment — not the declaring class's closure.  It aliases the
receiving instance: the scope's active-instance link is the receiver's
heap reference (conjunct 1), so an assignment to a field name not
shadowed in the scope writes directly into the instance's heap cell
(conjunct 7).  It binds `this` to the instance (conjunct 2), binds
`SUPER` to a Super over the stored parent exactly when a parent class
exists (conjuncts 3 and 4), and pre-binds every own and inherited
method name as a BoundMethod of the receiver with own methods taking
precedence — the binding agrees with `lookupMethod`'s own-first walk
(conjunct 5).  `applyBoundMethod` re-derives this environment from the
caller's environment on every invocation (conjunct 6). -/
theorem claim2_method_env_structure_amended :
    (∀ (ref : Nat) (d : InstData) (callerEnv : Env),
      (createMethodEnv ref d callerEnv).outer = some callerEnv ∧
      (createMethodEnv ref d callerEnv).inst = some ref) ∧
    (∀ (ref : Nat) (d : InstData) (callerEnv : Env),
      "this" ∉ d.cls.methods.map Prod.fst →
      lookupA "this" (createMethodEnv ref d callerEnv).store = some (.instV ref)) ∧
    (∀ (ref : Nat) (d : InstData) (callerEnv : Env) (p : ClassV),
      "SUPER" ∉ d.cls.methods.map Prod.fst →
      d.cls.parent = some p →
      lookupA "SUPER" (createMethodEnv ref d callerEnv).store = some (.superV ref p)) ∧
    (∀ (ref : Nat) (d : InstData) (callerEnv : Env),
      "SUPER" ∉ d.cls.methods.map Prod.fst →
      d.cls.parent = none →
      lookupA "SUPER" (createMethodEnv ref d callerEnv).store = none) ∧
    (∀ (ref : Nat) (d : InstData) (callerEnv : Env) (nm : String) (mv : Obj),
      (d.cls.methods.map Prod.fst).Nodup →
      nm ≠ "this" → nm ≠ "SUPER" →
      lookupMethod d.cls nm = some mv →
      lookupA nm (createMethodEnv ref d callerEnv).store = some (.boundV ref mv)) ∧
    (∀ (m : Nat) (ref : Nat) (nm2 : String) (ps : List Param) (body : List Stmt) (fenv : Env)
       (args : List Obj) (callerEnv : Env) (st : IState) (d : InstData),
      heapLookup st.insts ref = some d →
      applyBoundMethod (m+1) ref (.procV (.mk nm2 ps body fenv)) args callerEnv st
        = (unwrapReturnValue
             (evalStmtList m body (bindMethodParams (createMethodEnv ref d callerEnv) ps args) st).1,
           (evalStmtList m body (bindMethodParams (createMethodEnv ref d callerEnv) ps args) st).2.2)) ∧
    (∀ (h : Heap) (stl : List (String × Obj)) (c : List String) (ref : Nat) (caller : Env)
       (f : String) (v : Obj) (d2 : InstData),
      lookupA f stl = none →
      heapLookup h ref = some d2 →
      (lookupA f d2.fields).isSome = true →
      envSetInPlace h (.mk stl c (some ref) (some caller)) f v
        = (.mk stl c (some ref) (some caller), heapSetField h ref f v, v)) := by
  refine ⟨?_, ?_, ?_, ?_, ?_, ?_, ?_⟩
  · intro ref d callerEnv
    rcases d with ⟨⟨cn, par, ms, fs⟩, flds⟩
    cases par with
    | none =>
      simp only [createMethodEnv, ClassV.parent, ClassV.methods, declareInherited]
      have h3 := declareOwnMethods_parts ms
        (envDeclare (.mk [] [] (some ref) (some callerEnv)) "this" (.instV ref)) ref
      exact ⟨h3.2.2.trans rfl, h3.2.1.trans rfl⟩
    | some p =>
      simp only [createMethodEnv, ClassV.parent, ClassV.methods, declareInherited]
      have h4 := declareInheritedFrom_parts p
        (declareOwnMethods (envDeclare (envDeclare (.mk [] [] (some ref) (some callerEnv)) "this"
          (.instV ref)) "SUPER" (.superV ref p)) ref ms) ref
      have h3 := declareOwnMethods_parts ms
        (envDeclare (envDeclare (.mk [] [] (some ref) (some callerEnv)) "this"
          (.instV ref)) "SUPER" (.superV ref p)) ref
      exact ⟨(h4.2.2.trans h3.2.2).trans rfl, (h4.2.1.trans h3.2.1).trans rfl⟩
  · intro ref d callerEnv hthis
    rcases d with ⟨⟨cn, par, ms, fs⟩, flds⟩
    simp only [ClassV.methods] at hthis
    cases par with
    | none =>
      simp only [createMethodEnv, ClassV.parent, ClassV.methods, declareInherited]
      rw [declareOwnMethods_preserve ms _ ref "this" hthis]
      rfl
    | some p =>
      simp only [createMethodEnv, ClassV.parent, ClassV.methods, declareInherited]
      refine declareInheritedFrom_preserve p _ ref "this" _ ?_
      rw [declareOwnMethods_preserve ms _ ref "this" hthis]
      rfl
  · intro ref d callerEnv p hsc hpar
    rcases d with ⟨⟨cn, par, ms, fs⟩, flds⟩
    simp only [ClassV.parent] at hpar
    subst hpar
    simp only [ClassV.methods] at hsc
    simp only [createMethodEnv, ClassV.parent, ClassV.methods, declareInherited]
    refine declareInheritedFrom_preserve p _ ref "SUPER" _ ?_
    rw [declareOwnMethods_preserve ms _ ref "SUPER" hsc]
    rfl
  · intro ref d callerEnv hsc hpar
    rcases d with ⟨⟨cn, par, ms, fs⟩, flds⟩
    simp only [ClassV.parent] at hpar
    subst hpar
    simp only [ClassV.methods] at hsc
    simp only [createMethodEnv, ClassV.parent, ClassV.methods, declareInherited]
    rw [declareOwnMethods_preserve ms _ ref "SUPER" hsc]
    rfl
  · intro ref d callerEnv nm mv hnd hnthis hnsuper hlm
    rcases d with ⟨⟨cn, par, ms, fs⟩, flds⟩
    simp only [ClassV.methods] at hnd
    cases par with
    | none =>
      rw [lookupMethod.eq_2] at hlm
      cases hown : lookupA nm ms with
      | some mv0 =>
        rw [hown] at hlm
        simp only [Option.some.injEq] at hlm
        subst hlm
        simp only [createMethodEnv, ClassV.parent, ClassV.methods, declareInherited]
        exact declareOwnMethods_binds ms _ ref nm mv0 hnd hown
      | none =>
        rw [hown] at hlm
        cases hlm
    | some p =>
      rw [lookupMethod.eq_1] at hlm
      cases hown : lookupA nm ms with
      | some mv0 =>
        rw [hown] at hlm
        simp only [Option.some.injEq] at hlm
        subst hlm
        simp only [createMethodEnv, ClassV.parent, ClassV.methods, declareInherited]
        refine declareInheritedFrom_preserve p _ ref nm _ ?_
        exact declareOwnMethods_binds ms _ ref nm mv0 hnd hown
      | none =>
        rw [hown] at hlm
        simp only [createMethodEnv, ClassV.parent, ClassV.methods, declareInherited]
        refine declareInheritedFrom_binds p _ ref nm mv ?_ hlm
        rw [declareOwnMethods_preserve ms _ ref nm (lookupA_none_not_mem nm ms hown),
          (envDeclare_parts _ "SUPER" (.superV ref p)).1,
          lookupA_insertA_ne nm "SUPER" hnsuper (Obj.superV ref p),
          (envDeclare_parts _ "this" (.instV ref)).1,
          lookupA_insertA_ne nm "this" hnthis (Obj.instV ref)]
        rfl
  · intro m ref nm2 ps body fenv args callerEnv st d hd
    simp only [applyBoundMethod, hd]
  · intro h stl c ref caller f v d2 hf hd2 hfs
    rw [envSetInPlace.eq_1, hf]
    simp [instOwner, hd2, hfs]

/-- A parent class with one method `Get`. -/
def wParent : ClassV := .mk "A" none [("Get", .funcV (.mk "Get" [] [ .returnS (some (.intLit 1)) ] emptyEnv))] []

/-- A child class of `wParent` with one own method `Go`. -/
def wChild : ClassV := .mk "B" (some wParent)
  [("Go", .funcV (.mk "Go" [] [ .returnS (some (.intLit 2)) ] emptyEnv))] []

/-- An instance of the child class. -/
def wInst : InstData := ⟨wChild, []⟩

/-- An instance of the child class whose field map holds `x`. -/
def wInstX : InstData := ⟨wChild, [("x", .nullV)]⟩

/-- Witness for C2: the amended theorem's conjuncts applied at a
concrete two-class hierarchy with every hypothesis discharged by
computation. -/
theorem claim2_witness :
    ((createMethodEnv 0 wInst emptyEnv).outer = some emptyEnv ∧
     (createMethodEnv 0 wInst emptyEnv).inst = some 0)
    ∧ lookupA "this" (createMethodEnv 0 wInst emptyEnv).store = some (.instV 0)
    ∧ lookupA "SUPER" (createMethodEnv 0 wInst emptyEnv).store = some (.superV 0 wParent)
    ∧ lookupA "Get" (createMethodEnv 0 wInst emptyEnv).store
        = some (.boundV 0 (.funcV (.mk "Get" [] [ .returnS (some (.intLit 1)) ] emptyEnv)))
    ∧ envSetInPlace [(0, wInstX)] (.mk [] [] (some 0) (some emptyEnv)) "x" (.intV 3)
        = (.mk [] [] (some 0) (some emptyEnv), heapSetField [(0, wInstX)] 0 "x" (.intV 3),
           .intV 3) :=
  ⟨claim2_method_env_structure_amended.1 0 wInst emptyEnv,
   claim2_method_env_structure_amended.2.1 0 wInst emptyEnv (by decide),
   claim2_method_env_structure_amended.2.2.1 0 wInst emptyEnv wParent (by decide) rfl,
   claim2_method_env_structure_amended.2.2.2.2.1 0 wInst emptyEnv "Get"
     (.funcV (.mk "Get" [] [ .returnS (some (.intLit 1)) ] emptyEnv))
     (by decide) (by decide) (by decide) rfl,
   claim2_method_env_structure_amended.2.2.2.2.2.2 [(0, wInstX)] [] [] 0 emptyEnv "x"
     (.intV 3) wInstX rfl rfl rfl⟩

/-! ## C1: statement-list short-circuit on control signals -/

/-- **C1.**  Statement lists short-circuit on control signals:
(i) when a statement evaluates to an Error or ReturnValue, that signal
is the whole list's result and the scope and state are exactly those
the signalling statement produced — the tail of the list contributes
nothing; (ii) when there is no signal, execution continues through the
tail from the updated scope and state; (iii) the last
statement's value is the list's value; (iv) a FOR iteration whose body
signals yields the signal as the whole loop's result, skipping all
remaining iterations; (v) likewise a WHILE iteration; (vi) an IF hands
its chosen branch's outcome (signals included) straight through;
(vii) the propagation stops at the function-call boundary, where
`applyFunction` unwraps a trailing ReturnValue. -/
theorem claim1_statement_list_signal_short_circuit :
    (∀ (m : Nat) (s : Stmt) (rest : List Stmt) (env : Env) (st : IState),
      isSignal (evalStmt m s env st).1 = true →
      evalStmtList (m+1) (s :: rest) env st = evalStmt m s env st) ∧
    (∀ (m : Nat) (s : Stmt) (rest : List Stmt) (env : Env) (st : IState),
      rest ≠ [] →
      isSignal (evalStmt m s env st).1 = false →
      evalStmtList (m+1) (s :: rest) env st
        = evalStmtList m rest (evalStmt m s env st).2.1 (evalStmt m s env st).2.2) ∧
    (∀ (m : Nat) (s : Stmt) (env : Env) (st : IState),
      evalStmtList (m+1) [s] env st = evalStmt m s env st) ∧
    (∀ (m : Nat) (v : String) (current endV step : Int) (body : List Stmt) (loopEnv : Env)
       (st : IState) (prev : Obj),
      ¬(0 < step ∧ endV < current) → ¬(step < 0 ∧ current < endV) →
      isSignal (evalStmtList m body (envSetInPlace st.insts loopEnv v (.intV current)).1
        ⟨(envSetInPlace st.insts loopEnv v (.intV current)).2.1,
         st.nextRef, st.output, st.input⟩).1 = true →
      forLoop (m+1) v current endV step body loopEnv st prev
        = evalStmtList m body (envSetInPlace st.insts loopEnv v (.intV current)).1
            ⟨(envSetInPlace st.insts loopEnv v (.intV current)).2.1,
             st.nextRef, st.output, st.input⟩) ∧
    (∀ (m : Nat) (cond : Expr) (body : List Stmt) (env : Env) (st : IState) (prev : Obj),
      isError (evalExpr m cond env st).1 = false →
      isTruthy (evalExpr m cond env st).1 = true →
      isSignal (evalStmtList m body env (evalExpr m cond env st).2).1 = true →
      whileLoop (m+1) cond body env st prev
        = evalStmtList m body env (evalExpr m cond env st).2) ∧
    (∀ (m : Nat) (c : Expr) (cons : List Stmt) (alt : Option (List Stmt)) (env : Env)
       (st : IState) (cv : Obj) (st1 : IState),
      evalExpr m c env st = (cv, st1) → isError cv = false → isTruthy cv = true →
      evalStmt (m+1) (.ifS c cons alt) env st = evalStmtList m cons env st1) ∧
    (∀ (m : Nat) (nm : String) (ps : List Param) (body : List Stmt) (fenv : Env)
       (args : List Obj) (callerEnv : Env) (st : IState),
      applyFunction (m+1) (.funcV (.mk nm ps body fenv)) args callerEnv st
        = (unwrapReturnValue (evalStmtList m body (extendFunctionEnv fenv args ps) st).1,
           (evalStmtList m body (extendFunctionEnv fenv args ps) st).2.2)) := by
  refine ⟨?_, ?_, ?_, ?_, ?_, ?_, ?_⟩
  · intro m s rest env st hsig
    cases rest with
    | nil => exact evalStmtList.eq_3 env st m s
    | cons r rs =>
      rw [evalStmtList.eq_4 env st m s (r :: rs) (by simp), if_pos hsig]
  · intro m s rest env st hne hsig
    cases rest with
    | nil => exact absurd rfl hne
    | cons r rs =>
      rw [evalStmtList.eq_4 env st m s (r :: rs) (by simp), hsig]
      simp
  · intro m s env st
    exact evalStmtList.eq_3 env st m s
  · intro m v current endV step body loopEnv st prev h1 h2 hsig
    rw [forLoop.eq_2, if_neg h1, if_neg h2]
    cases hsv : (evalStmtList m body (envSetInPlace st.insts loopEnv v (.intV current)).1
        ⟨(envSetInPlace st.insts loopEnv v (.intV current)).2.1,
         st.nextRef, st.output, st.input⟩).1 with
    | retV rv => simp [hsv, isError]
    | errV msg => simp [hsv, isError]
    | _ => rw [hsv] at hsig; simp [isSignal] at hsig
  · intro m cond body env st prev herr htr hsig
    rw [whileLoop.eq_2, herr]
    simp only [Bool.false_eq_true, if_false, htr, Bool.not_true]
    cases hsv : (evalStmtList m body env (evalExpr m cond env st).2).1 with
    | retV rv => simp [hsv, isError]
    | errV msg => simp [hsv, isError]
    | _ => rw [hsv] at hsig; simp [isSignal] at hsig
  · intro m c cons alt env st cv st1 hc herr htr
    simp only [evalStmt, hc, herr, Bool.false_eq_true, if_false, htr, if_true]
  · intro m nm ps body fenv args callerEnv st
    rfl

/-- Witness for C1: conjunct (i) applied to a RETURN statement followed
by a never-executed OUTPUT — the list's result is the ReturnValue and
no output is produced — and conjunct (vi) applied to an IF with a true
condition. -/
theorem claim1_witness :
    evalStmtList 6 [ .returnS (some (.intLit 1)), .outputS [.strLit "dead"] ] emptyEnv emptyState
      = evalStmt 5 (.returnS (some (.intLit 1))) emptyEnv emptyState
    ∧ evalStmt 6 (.ifS (.boolLit true) [ .exprS (.intLit 3) ] none) emptyEnv emptyState
      = evalStmtList 5 [ .exprS (.intLit 3) ] emptyEnv emptyState :=
  ⟨claim1_statement_list_signal_short_circuit.1 5 (.returnS (some (.intLit 1)))
     [ .outputS [.strLit "dead"] ] emptyEnv emptyState rfl,
   claim1_statement_list_signal_short_circuit.2.2.2.2.2.1 5 (.boolLit true)
     [ .exprS (.intLit 3) ] none emptyEnv emptyState (.boolV true) emptyState rfl rfl rfl⟩
